import Mathlib

/-!
Verification of the offline-first synchronization core of the stockline
pre-order application (frontend sync engine: Dexie-backed local store,
outbox, push/pull services, recap query).

The development shallowly embeds the TypeScript source:

* JavaScript objects (the `data` field bags and the IndexedDB entity rows)
  are association lists of string keys and `Value`s, with JS spread
  semantics (`objMerge`), property deletion (`objErase`) and property
  access (`objLookup`).
* Dexie tables are association lists keyed by the primary key `id`
  (`Table`), with `tableGet`/`tablePut`/`tableUpdate`/`tableDelete`
  mirroring `get`/`put`/`update`/`delete`.
* The `SyncDB` helpers, the `Repository` base class, `PushService`
  (`coalesceOperations`, `toPushOperation`, `processOperationResult`,
  `pushOperations`), `PullService` (`applyOperation`, `rebaseEntity` and
  the reapply helpers) and the recap read query `getRecapFromLocalDb`
  are translated function by function.
* Wall-clock reads (`Date.now()`, `new Date().toISOString()`) become
  explicit `nowMs : Int` / `nowIso : String` parameters; the id
  generator becomes an explicit operation-id parameter.
-/

namespace Stockline

/-- A JavaScript runtime value as it occurs in the synced field bags:
`null`, a number (the app only uses integer-valued numbers: versions,
statuses, quantities), a string, or a boolean. -/
inductive Value where
  | vnull
  | vint (n : Int)
  | vstr (s : String)
  | vbool (b : Bool)
  deriving DecidableEq, Repr

/-- Read a key of an association list with unique keys (the first
occurrence; JS objects and maps have unique keys). -/
def assocGet {β : Type} : List (String × β) → String → Option β
  | [], _ => none
  | p :: t, k => if p.1 = k then some p.2 else assocGet t k

/-- Write a key of an association list with unique keys: overwrite the
occurrence in place, or append the binding (JS insertion order). -/
def assocPut {β : Type} : List (String × β) → String → β → List (String × β)
  | [], k, v => [(k, v)]
  | p :: t, k, v => if p.1 = k then (k, v) :: t else p :: assocPut t k v

/-- A JavaScript object: an association list of properties in insertion
order. -/
abbrev Obj := List (String × Value)

/-- Property access `o[k]`; `none` models `undefined` (absent key). -/
def objLookup (o : Obj) (k : String) : Option Value :=
  assocGet o k

/-- Property assignment `o[k] = v`. -/
def objInsert (o : Obj) (k : String) (v : Value) : Obj :=
  assocPut o k v

/-- JS spread `{...a, ...b}`: assign every property of `b` over `a`. -/
def objMerge (a b : Obj) : Obj :=
  b.foldl (fun acc p => objInsert acc p.1 p.2) a

/-- JS `delete o[k]`. -/
def objErase (o : Obj) (k : String) : Obj :=
  o.filter (fun p => p.1 ≠ k)

/-- JS truthiness of a value (`null`, `0`, `""` and `false` are falsy). -/
def truthy : Value → Bool
  | .vnull => false
  | .vint n => n ≠ 0
  | .vstr s => s ≠ ""
  | .vbool b => b

/-- JS `x || null`: keep a truthy value, otherwise `null`. The argument
is optional so that an absent property (`undefined`) also maps to
`null`, as in the source. -/
def orNull : Option Value → Value
  | some v => if truthy v then v else .vnull
  | none => .vnull

/-- JS nullish coalescing `x ?? d` where `none` models `undefined`. -/
def coalesceValue (x : Option Value) (d : Value) : Value :=
  match x with
  | some .vnull => d
  | some v => v
  | none => d

/-- JS `String(x)`; an absent property stringifies as `"undefined"`. -/
def jsString : Option Value → String
  | some .vnull => "null"
  | some (.vint n) => toString n
  | some (.vstr s) => s
  | some (.vbool b) => if b then "true" else "false"
  | none => "undefined"

/-- JS `Number(x)`. Numeric parsing of non-numeric strings yields NaN in
JS; the app never feeds strings to `Number`, and the model returns 0
there. -/
def jsNumber : Value → Int
  | .vnull => 0
  | .vint n => n
  | .vstr _ => 0
  | .vbool b => if b then 1 else 0

/-- JS `x + 1` on an entity's `version` property. On a non-number JS
would produce NaN (never exercised: every row the app writes carries an
integer version); the model returns `null` there. -/
def valuePlusOne : Option Value → Value
  | some (.vint n) => .vint (n + 1)
  | _ => .vnull

/-- The `entity_type` discriminator of outbox operations
(`"pre_order" | "pre_order_flow"` in `models.ts`). -/
inductive EntityType where
  | pre_order
  | pre_order_flow
  deriving DecidableEq, Repr

/-- The wire string of an `EntityType`. -/
def entityTypeName : EntityType → String
  | .pre_order => "pre_order"
  | .pre_order_flow => "pre_order_flow"

/-- `operation_type` of an outbox operation. -/
inductive OpType where
  | CREATE
  | UPDATE
  | DELETE
  deriving DecidableEq, Repr

/-- Outbox operation status (`models.ts`). -/
inductive OpStatus where
  | pending
  | syncing
  | synced
  | failed
  | rejected
  deriving DecidableEq, Repr

/-- An outbox row (`OutboxOperation` in `models.ts`). -/
structure OutboxOperation where
  id : String
  entity_type : EntityType
  entity_id : String
  operation_type : OpType
  data : Obj
  timestamp : String
  status : OpStatus
  retry_count : Nat
  sequence_number : Nat
  next_retry_at : Option Int
  last_error : Option String
  deriving DecidableEq, Repr

/-- A Dexie table: rows indexed by their primary key `id`. -/
abbrev Table := List (String × Obj)

/-- `table.get(id)`. -/
def tableGet (t : Table) (id : String) : Option Obj :=
  assocGet t id

/-- `table.put(id, row)`: replace the row when the key exists, else add. -/
def tablePut (t : Table) (id : String) (row : Obj) : Table :=
  assocPut t id row

/-- Dexie `table.update(id, changes)`: merge the changes into the stored
row; a no-op when the key is absent. -/
def tableUpdate (t : Table) (id : String) (changes : Obj) : Table :=
  match tableGet t id with
  | some row => tablePut t id (objMerge row changes)
  | none => t

/-- `table.delete(id)`. -/
def tableDelete (t : Table) (id : String) : Table :=
  t.filter (fun p => p.1 ≠ id)

/-- The local store (`SyncDB`): the two entity tables, the three
reference tables, the metadata key-value table and the outbox. -/
structure DB where
  pre_orders : Table
  pre_order_flows : Table
  partners : Table
  products : Table
  units : Table
  metadata : List (String × Value)
  outbox : List OutboxOperation
  deriving DecidableEq, Repr

/-- Ascending comparison on `sequence_number`, the order used by
`getPendingOperations`. -/
def seqLe (a b : OutboxOperation) : Prop :=
  a.sequence_number ≤ b.sequence_number

instance : DecidableRel seqLe :=
  fun a b => inferInstanceAs (Decidable (a.sequence_number ≤ b.sequence_number))

instance : IsTotal OutboxOperation seqLe :=
  ⟨fun a b => Nat.le_total a.sequence_number b.sequence_number⟩

instance : IsTrans OutboxOperation seqLe :=
  ⟨fun _ _ _ hab hbc => Nat.le_trans hab hbc⟩

/-- `SyncDB.getPendingOperations`: the operations with status `pending`,
plus the `failed` ones whose `next_retry_at` is non-null and due, sorted
ascending by `sequence_number` (the combined array is sorted with a
stable comparator sort, modelled by insertion sort). -/
def getPendingOperations (db : DB) (nowMs : Int) : List OutboxOperation :=
  let pending := db.outbox.filter (fun op => op.status = .pending)
  let failedReady := db.outbox.filter (fun op =>
    op.status = .failed &&
    match op.next_retry_at with
    | some t => decide (t ≤ nowMs)
    | none => false)
  List.insertionSort seqLe (pending ++ failedReady)

/-- `SyncDB.getNextSequenceNumber`: one more than the largest
`sequence_number` in the outbox, or 1 when the outbox is empty. -/
def getNextSequenceNumber (outbox : List OutboxOperation) : Nat :=
  (outbox.foldl (fun m op => max m op.sequence_number) 0) + 1

/-- `SyncDB.addOutboxOperation`: assign the next sequence number and
persist with `next_retry_at = null`, `last_error = null`. -/
def addOutboxOperation (db : DB) (op : OutboxOperation) : DB :=
  { db with
    outbox := db.outbox ++
      [{ op with
          sequence_number := getNextSequenceNumber db.outbox,
          next_retry_at := none,
          last_error := none }] }

/-- `SyncDB.markOperationSynced`. -/
def markOperationSynced (db : DB) (operationId : String) : DB :=
  { db with
    outbox := db.outbox.map (fun op =>
      if op.id = operationId then { op with status := .synced } else op) }

/-- `SyncDB.markOperationsSynced` (bulk). -/
def markOperationsSynced (db : DB) (ids : List String) : DB :=
  { db with
    outbox := db.outbox.map (fun op =>
      if op.id ∈ ids then { op with status := .synced } else op) }

/-- `SyncDB.markOperationsSyncing` (bulk). -/
def markOperationsSyncing (db : DB) (ids : List String) : DB :=
  { db with
    outbox := db.outbox.map (fun op =>
      if op.id ∈ ids then { op with status := .syncing } else op) }

/-- `SyncDB.markOperationRejected`: terminal rejection with message. -/
def markOperationRejected (db : DB) (operationId : String) (msg : Option String) : DB :=
  { db with
    outbox := db.outbox.map (fun op =>
      if op.id = operationId then
        { op with status := .rejected, last_error := msg }
      else op) }

/-- `SyncDB.markOperationFailed`: increment `retry_count` and schedule
the next retry with exponential backoff (base 1 s, cap 5 min); after
`MAX_RETRIES = 5` the operation is terminally failed
(`next_retry_at = null`). -/
def markOperationFailed (db : DB) (operationId : String) (nowMs : Int)
    (errorMessage : Option String) : DB :=
  match db.outbox.find? (fun op => op.id = operationId) with
  | none => db
  | some operation =>
    let newRetryCount := operation.retry_count + 1
    let nextRetryAt : Option Int :=
      if newRetryCount ≤ 5 then
        some (nowMs + min ((1000 : Int) * 2 ^ (newRetryCount - 1)) 300000)
      else
        none
    { db with
      outbox := db.outbox.map (fun op =>
        if op.id = operationId then
          { op with
              status := .failed,
              retry_count := newRetryCount,
              next_retry_at := nextRetryAt,
              last_error := errorMessage }
        else op) }

/-- `SyncDB.updateEntityVersion`: route to the entity table and set the
row's `version`. -/
def updateEntityVersion (db : DB) (entityType : EntityType) (entityId : String)
    (newVersion : Int) : DB :=
  match entityType with
  | .pre_order =>
    { db with pre_orders := tableUpdate db.pre_orders entityId [("version", .vint newVersion)] }
  | .pre_order_flow =>
    { db with pre_order_flows := tableUpdate db.pre_order_flows entityId [("version", .vint newVersion)] }

/-- `metadata.put({key, value})`. -/
def putMetadata (db : DB) (key : String) (value : Value) : DB :=
  { db with metadata := assocPut db.metadata key value }

/-- The entity table selected by
`entityType === "pre_order" ? db.pre_orders : db.pre_order_flows` (used
by the push reconciliation and by the `Repository` instances:
`PreOrderRepository` pairs the `pre_orders` table with the `pre_order`
entity type, `PreOrderFlowRepository` the `pre_order_flows` table with
the flow entity type). -/
def repoTable (db : DB) : EntityType → Table
  | .pre_order => db.pre_orders
  | .pre_order_flow => db.pre_order_flows

/-- Store back the entity table selected by `repoTable`. -/
def setRepoTable (db : DB) : EntityType → Table → DB
  | .pre_order, t => { db with pre_orders := t }
  | .pre_order_flow, t => { db with pre_order_flows := t }

/-- The winner of a resolved field conflict (`"client" | "server"`). -/
inductive Winner where
  | client
  | server
  deriving DecidableEq, Repr

/-- `ResolvedFieldConflict` (`sync/types.ts`). -/
structure ResolvedFieldConflict where
  field : String
  client_value : Value
  server_value : Value
  winner : Winner
  deriving DecidableEq, Repr

/-- Per-operation result status (`"success" | "conflict" | "error"`). -/
inductive ResultStatus where
  | success
  | conflict
  | error
  deriving DecidableEq, Repr

/-- `PushOperationResult` (`sync/types.ts`). -/
structure PushOperationResult where
  operation_id : String
  status : ResultStatus
  sync_id : Option Int
  new_version : Option Int
  message : Option String
  conflicts : Option (List ResolvedFieldConflict)
  deriving DecidableEq, Repr

/-- `PushOperationRequest` (`sync/types.ts`), the wire shape sent to
`POST /sync/push`. -/
structure PushOperationRequest where
  id : String
  entity_type : EntityType
  entity_id : String
  operation_type : OpType
  data : Obj
  expected_version : Option Int
  timestamp : String
  deriving DecidableEq, Repr

/-- An error entry of a `PushResult`. -/
structure PushError where
  operationId : String
  message : String
  deriving DecidableEq, Repr

/-- `PushResult` statistics (`sync/types.ts`). -/
structure PushResult where
  processedCount : Nat
  successCount : Nat
  failedCount : Nat
  errors : List PushError
  deriving DecidableEq, Repr

/-- `PushService.toPushOperation`: extract `expected_version` from the
stored `data.version` (when it is a number), and strip the client-only
`version`, `created_at` and `updated_at` fields from the payload. -/
def toPushOperation (op : OutboxOperation) : PushOperationRequest :=
  let data := op.data
  let expectedVersion : Option Int :=
    match objLookup data "version" with
    | some (.vint n) => some n
    | _ => none
  let cleanData := objErase (objErase (objErase data "version") "created_at") "updated_at"
  { id := op.id
    entity_type := op.entity_type
    entity_id := op.entity_id
    operation_type := op.operation_type
    data := cleanData
    expected_version := expectedVersion
    timestamp := op.timestamp }

/-- The grouping key `entity_type + ":" + entity_id` used by
`coalesceOperations` (and by `PullService.groupPendingOpsByEntity`). -/
def entityKey (op : OutboxOperation) : String :=
  entityTypeName op.entity_type ++ ":" ++ op.entity_id

/-- The key-accumulation loop behind `groupKeys`. -/
def groupKeysAux (acc : List String) : List OutboxOperation → List String
  | [] => acc
  | op :: rest =>
    groupKeysAux (if entityKey op ∈ acc then acc else acc ++ [entityKey op]) rest

/-- The group keys in first-occurrence order (JS `Map` preserves
insertion order). -/
def groupKeys (operations : List OutboxOperation) : List String :=
  groupKeysAux [] operations

/-- Group the operations by `(entity_type, entity_id)` preserving the
sequence order inside each group and the first-occurrence order of the
groups, as the JS `Map`-based loop does. -/
def groupByEntity (operations : List OutboxOperation) : List (List OutboxOperation) :=
  (groupKeys operations).map (fun k => operations.filter (fun op => entityKey op = k))

/-- Merge the `data` of later operations over `acc`, stripping each
later operation's `version` field first (the body of the two merge
loops in `coalesceOperations`). -/
def mergeStrippedData (init : Obj) (later : List OutboxOperation) : Obj :=
  later.foldl (fun acc op => objMerge acc (objErase op.data "version")) init

/-- The per-group body of `PushService.coalesceOperations`: returns the
operations to send and the ids of the operations coalesced away. -/
def coalesceGroup : List OutboxOperation → List OutboxOperation × List String
  | [] => ([], [])
  | [op] => ([op], [])
  | first :: second :: tail =>
    let group := first :: second :: tail
    let last := group.getLastD first
    if first.operation_type = .CREATE ∧ last.operation_type = .DELETE then
      ([], group.map (fun op => op.id))
    else if first.operation_type = .CREATE then
      let mergedData := mergeStrippedData first.data (second :: tail)
      ([{ first with data := mergedData, timestamp := last.timestamp }],
       (second :: tail).map (fun op => op.id))
    else
      let updates := group.takeWhile (fun op => op.operation_type = .UPDATE)
      let rest := group.dropWhile (fun op => op.operation_type = .UPDATE)
      let endsWithDelete : Prop :=
        rest ≠ [] ∧ (rest.getLastD first).operation_type = .DELETE
      if endsWithDelete then
        (rest, updates.map (fun op => op.id))
      else if 1 < updates.length then
        let firstUpdate := updates.headD first
        let mergedData := mergeStrippedData firstUpdate.data (updates.drop 1)
        ([{ firstUpdate with
              data := mergedData,
              timestamp := (updates.getLastD first).timestamp }] ++ rest,
         (updates.drop 1).map (fun op => op.id))
      else
        (updates ++ rest, [])

/-- `PushService.coalesceOperations`: apply `coalesceGroup` to every
entity group and concatenate the sends and the removed ids in group
order. -/
def coalesceOperations (operations : List OutboxOperation) :
    List OutboxOperation × List String :=
  let groups := groupByEntity operations
  ((groups.map (fun g => (coalesceGroup g).1)).flatten,
   (groups.map (fun g => (coalesceGroup g).2)).flatten)

/-- `PushService.getPreOrderIdForCacheInvalidation`: for a pre-order the
entity id itself; for a flow the `pre_order_id` taken from the operation
data when truthy, else from the stored flow row. -/
def getPreOrderIdForCacheInvalidation (db : DB) (outboxOp : Option OutboxOperation) :
    Option String :=
  match outboxOp with
  | none => none
  | some op =>
    match op.entity_type with
    | .pre_order => some op.entity_id
    | .pre_order_flow =>
      let fallback : Option String :=
        match tableGet db.pre_order_flows op.entity_id with
        | some flow =>
          match objLookup flow "pre_order_id" with
          | some (.vstr s) => some s
          | _ => none
        | none => none
      match objLookup op.data "pre_order_id" with
      | some v =>
        if truthy v then
          match v with
          | .vstr s => some s
          | _ => none
        else fallback
      | none => fallback

/-- The `serverUpdates` accumulation loop of
`processOperationResult`: collect `field -> server_value` for every
conflict the server won. -/
def serverUpdatesOfAux (acc : Obj) : List ResolvedFieldConflict → Obj
  | [] => acc
  | c :: cs =>
    serverUpdatesOfAux
      (if c.winner = .server then objInsert acc c.field c.server_value else acc) cs

/-- The `serverUpdates` object built by `processOperationResult`. -/
def serverUpdatesOf (conflicts : List ResolvedFieldConflict) : Obj :=
  serverUpdatesOfAux [] conflicts

/-- The restore patch of the DELETE-conflict branch of
`processOperationResult`: `deleted_at = null`,
`version = new_version ?? existing.version`, `updated_at = now`. -/
def restorePatch (opResult : PushOperationResult) (existing : Obj) (nowIso : String) : Obj :=
  [("deleted_at", .vnull),
   ("version",
     match opResult.new_version with
     | some v => .vint v
     | none => (objLookup existing "version").getD .vnull),
   ("updated_at", .vstr nowIso)]

/-- `PushService.processOperationResult`: reconcile one per-operation
server result into the store. Returns the updated store, the success
flag and the affected pre-order id for cache invalidation. -/
def processOperationResult (db : DB) (opResult : PushOperationResult)
    (toSend : List OutboxOperation) (nowIso : String) :
    DB × Bool × Option String :=
  let outboxOp := toSend.find? (fun op => op.id = opResult.operation_id)
  if opResult.status = .success ∨
      (opResult.status = .conflict ∧
        ¬ (outboxOp.map (fun op => op.operation_type) = some .DELETE)) then
    let db1 := markOperationSynced db opResult.operation_id
    let db2 :=
      match opResult.new_version, outboxOp with
      | some v, some op => updateEntityVersion db1 op.entity_type op.entity_id v
      | _, _ => db1
    let db3 :=
      if opResult.status = .conflict then
        match opResult.conflicts, outboxOp with
        | some conflicts, some op =>
          if serverUpdatesOf conflicts ≠ [] then
            setRepoTable db2 op.entity_type
              (tableUpdate (repoTable db2 op.entity_type) op.entity_id
                (serverUpdatesOf conflicts))
          else db2
        | _, _ => db2
      else db2
    (db3, true, getPreOrderIdForCacheInvalidation db3 outboxOp)
  else
    let db1 :=
      if opResult.status = .conflict ∧
          outboxOp.map (fun op => op.operation_type) = some .DELETE then
        match outboxOp with
        | some op =>
          match tableGet (repoTable db op.entity_type) op.entity_id with
          | some existing =>
            setRepoTable db op.entity_type
              (tableUpdate (repoTable db op.entity_type) op.entity_id
                (restorePatch opResult existing nowIso))
          | none => db
        | none => db
      else db
    let db2 := markOperationRejected db1 opResult.operation_id opResult.message
    (db2, false, none)

/-- The outcome of the single `POST /sync/push` call: a per-operation
result list, or a transport failure (network error, timeout, 5xx). -/
inductive ServerResponse where
  | ok (results : List PushOperationResult)
  | transportError (message : String)

/-- `PushService.pushOperations`: snapshot the pending operations,
coalesce, mark the removed operations synced, send the rest, reconcile
the per-operation results (or mark every sent operation failed on a
transport error). The server is passed as a function from the request
batch to its outcome, so an execution that never reaches the network is
independent of it. -/
def pushOperations (db : DB) (nowMs : Int) (nowIso : String)
    (server : List PushOperationRequest → ServerResponse) : DB × PushResult :=
  let operations := getPendingOperations db nowMs
  if operations = [] then
    (db, { processedCount := 0, successCount := 0, failedCount := 0, errors := [] })
  else
    let processed := operations.length
    let sendRemove := coalesceOperations operations
    let toSend := sendRemove.1
    let toRemoveIds := sendRemove.2
    let db1 := if toRemoveIds ≠ [] then markOperationsSynced db toRemoveIds else db
    if toSend = [] then
      (db1, { processedCount := processed, successCount := processed,
              failedCount := 0, errors := [] })
    else
      let requests := toSend.map toPushOperation
      let ids := toSend.map (fun op => op.id)
      let db2 := markOperationsSyncing db1 ids
      match server requests with
      | .transportError msg =>
        let db3 := toSend.foldl (fun d op => markOperationFailed d op.id nowMs (some msg)) db2
        (db3, { processedCount := processed, successCount := 0,
                failedCount := toSend.length,
                errors := [{ operationId := "batch", message := msg }] })
      | .ok results =>
        let folded := results.foldl
          (fun (acc : DB × Nat × Nat × List PushError) r =>
            let processResult := processOperationResult acc.1 r toSend nowIso
            if processResult.2.1 then
              (processResult.1, acc.2.1 + 1, acc.2.2.1, acc.2.2.2)
            else
              (processResult.1, acc.2.1, acc.2.2.1 + 1,
               acc.2.2.2 ++ [{ operationId := r.operation_id,
                               message := r.message.getD "Unknown server error" }]))
          (db2, 0, 0, [])
        let db3 := folded.1
        let succ := folded.2.1
        let fail := folded.2.2.1
        let errs := folded.2.2.2
        let db4 :=
          if 0 < succ then putMetadata db3 "last_push_timestamp" (.vstr nowIso) else db3
        (db4, { processedCount := processed, successCount := succ,
                failedCount := fail, errors := errs })

/-- A pulled server operation (`PullOperation` in `sync/types.ts`). The
`entity_type` is the raw wire string: `applyOperation` has an explicit
branch for unknown values. -/
structure PullOperation where
  sync_id : Int
  entity_type : String
  entity_id : String
  operation_type : OpType
  data : Obj
  timestamp : String
  deriving DecidableEq, Repr

/-- `PullService.PRE_ORDER_UPDATEABLE_FIELDS`. -/
def PRE_ORDER_UPDATEABLE_FIELDS : List String :=
  ["partner_id", "status", "order_date", "delivery_date", "comment"]

/-- `PullService.PRE_ORDER_FLOW_UPDATEABLE_FIELDS`. -/
def PRE_ORDER_FLOW_UPDATEABLE_FIELDS : List String :=
  ["pre_order_id", "product_id", "unit_id", "quantity", "price", "comment"]

/-- The accumulating loop of `PullService.pickFields`. -/
def pickFieldsAux (source : Obj) (acc : Obj) : List String → Obj
  | [] => acc
  | f :: fs =>
    match objLookup source f with
    | some v => pickFieldsAux source (objInsert acc f v) fs
    | none => pickFieldsAux source acc fs

/-- `PullService.pickFields`: keep, in field-list order, the listed
fields that are present in the source object. -/
def pickFields (source : Obj) (fields : List String) : Obj :=
  pickFieldsAux source [] fields

/-- The full pre-order row assembled by `applyPreOrderOperation` for a
CREATE, with the JS coercions of the source (`String(...)`,
`Number(... ?? 0)`, `(... as string) || null`, `(data.version) ?? 1`). -/
def assemblePreOrderRow (entityId : String) (data : Obj) : Obj :=
  [("id", .vstr entityId),
   ("partner_id", .vstr (jsString (objLookup data "partner_id"))),
   ("status", .vint (jsNumber (coalesceValue (objLookup data "status") (.vint 0)))),
   ("order_date", orNull (objLookup data "order_date")),
   ("delivery_date", .vstr (jsString (objLookup data "delivery_date"))),
   ("comment", orNull (objLookup data "comment")),
   ("created_at", orNull (objLookup data "created_at")),
   ("updated_at", orNull (objLookup data "updated_at")),
   ("version", coalesceValue (objLookup data "version") (.vint 1)),
   ("deleted_at", orNull (objLookup data "deleted_at"))]

/-- The full flow row assembled by `applyFlowOperation` for a CREATE. -/
def assembleFlowRow (entityId : String) (data : Obj) : Obj :=
  [("id", .vstr entityId),
   ("pre_order_id", .vstr (jsString (objLookup data "pre_order_id"))),
   ("product_id", .vstr (jsString (objLookup data "product_id"))),
   ("unit_id", .vstr (jsString (objLookup data "unit_id"))),
   ("quantity", .vint (jsNumber (coalesceValue (objLookup data "quantity") (.vint 0)))),
   ("price", .vint (jsNumber (coalesceValue (objLookup data "price") (.vint 0)))),
   ("comment", orNull (objLookup data "comment")),
   ("created_at", orNull (objLookup data "created_at")),
   ("updated_at", orNull (objLookup data "updated_at")),
   ("version", coalesceValue (objLookup data "version") (.vint 1)),
   ("deleted_at", orNull (objLookup data "deleted_at"))]

/-- The `if (data.k !== undefined) updates.k = (data.k as string) || null`
steps of the UPDATE branches of `applyPreOrderOperation` /
`applyFlowOperation`. -/
def withKeyIfPresent (data : Obj) (k : String) (o : Obj) : Obj :=
  match objLookup data k with
  | some v => objInsert o k (orNull (some v))
  | none => o

/-- The update patch built by the UPDATE branches of
`applyPreOrderOperation` / `applyFlowOperation`:
`{ version: data.version ?? existing.version, ...pickFields(...) }`,
then `updated_at` and `deleted_at` when present in the data. -/
def buildPullUpdatePatch (existing data : Obj) (fields : List String) : Obj :=
  withKeyIfPresent data "deleted_at"
    (withKeyIfPresent data "updated_at"
      (objMerge
        (objInsert [] "version"
          (coalesceValue (objLookup data "version") ((objLookup existing "version").getD .vnull)))
        (pickFields data fields)))

/-- The soft-delete patch used by the DELETE branches (and by
`reapplyLocalDelete`): `deleted_at = now`, `version = old + 1`,
`updated_at = now`. -/
def softDeletePatch (existing : Obj) (nowIso : String) : Obj :=
  [("deleted_at", .vstr nowIso),
   ("version", valuePlusOne (objLookup existing "version")),
   ("updated_at", .vstr nowIso)]

/-- Soft-delete every flow whose `pre_order_id` equals `entityId` (the
cascade loop of the pre-order DELETE branches); the flow snapshot is
taken before the loop, as in the source. -/
def cascadeSoftDeleteFlows (db : DB) (entityId : String) (nowIso : String) : DB :=
  let flows := db.pre_order_flows.filter (fun p =>
    objLookup p.2 "pre_order_id" = some (.vstr entityId))
  flows.foldl (fun d fp =>
    { d with pre_order_flows := tableUpdate d.pre_order_flows fp.1 (softDeletePatch fp.2 nowIso) })
    db

/-- `PullService.applyPreOrderOperation`. -/
def applyPreOrderOperation (db : DB) (entityId : String) (operationType : OpType)
    (data : Obj) (nowIso : String) : DB :=
  match operationType with
  | .CREATE =>
    { db with pre_orders := tablePut db.pre_orders entityId (assemblePreOrderRow entityId data) }
  | .UPDATE =>
    match tableGet db.pre_orders entityId with
    | none => db
    | some existing =>
      { db with
        pre_orders := tableUpdate db.pre_orders entityId
          (buildPullUpdatePatch existing data PRE_ORDER_UPDATEABLE_FIELDS) }
  | .DELETE =>
    match tableGet db.pre_orders entityId with
    | none => db
    | some existing =>
      let db1 :=
        { db with pre_orders := tableUpdate db.pre_orders entityId (softDeletePatch existing nowIso) }
      cascadeSoftDeleteFlows db1 entityId nowIso

/-- `PullService.applyFlowOperation`. -/
def applyFlowOperation (db : DB) (entityId : String) (operationType : OpType)
    (data : Obj) (nowIso : String) : DB :=
  match operationType with
  | .CREATE =>
    { db with pre_order_flows := tablePut db.pre_order_flows entityId (assembleFlowRow entityId data) }
  | .UPDATE =>
    match tableGet db.pre_order_flows entityId with
    | none => db
    | some existing =>
      { db with
        pre_order_flows := tableUpdate db.pre_order_flows entityId
          (buildPullUpdatePatch existing data PRE_ORDER_FLOW_UPDATEABLE_FIELDS) }
  | .DELETE =>
    match tableGet db.pre_order_flows entityId with
    | none => db
    | some existing =>
      { db with
        pre_order_flows := tableUpdate db.pre_order_flows entityId (softDeletePatch existing nowIso) }

/-- `PullService.applyOperation`: dispatch on the wire `entity_type`;
unknown types are logged and skipped. -/
def applyOperation (db : DB) (op : PullOperation) (nowIso : String) : DB :=
  if op.entity_type = "pre_order" then
    applyPreOrderOperation db op.entity_id op.operation_type op.data nowIso
  else if op.entity_type = "pre_order_flow" then
    applyFlowOperation db op.entity_id op.operation_type op.data nowIso
  else
    db

/-- `PullService.getEntity`: the stored row's version, `none` when the
row (or the entity type) is unknown. -/
def getEntity (db : DB) (entityType : String) (entityId : String) : Option Value :=
  if entityType = "pre_order" then
    (tableGet db.pre_orders entityId).map (fun row => (objLookup row "version").getD .vnull)
  else if entityType = "pre_order_flow" then
    (tableGet db.pre_order_flows entityId).map (fun row => (objLookup row "version").getD .vnull)
  else
    none

/-- `PullService.reapplyLocalUpdate`: merge the writable fields of a
pending local UPDATE back into the stored row (version and timestamps
keep the server's values). -/
def reapplyLocalUpdate (db : DB) (entityType : EntityType) (entityId : String)
    (data : Obj) : DB :=
  match entityType with
  | .pre_order =>
    match tableGet db.pre_orders entityId with
    | none => db
    | some _ =>
      let updates := pickFields data PRE_ORDER_UPDATEABLE_FIELDS
      if updates ≠ [] then
        { db with pre_orders := tableUpdate db.pre_orders entityId updates }
      else db
  | .pre_order_flow =>
    match tableGet db.pre_order_flows entityId with
    | none => db
    | some _ =>
      let updates := pickFields data PRE_ORDER_FLOW_UPDATEABLE_FIELDS
      if updates ≠ [] then
        { db with pre_order_flows := tableUpdate db.pre_order_flows entityId updates }
      else db

/-- `PullService.reapplyLocalDelete`: soft-delete the row again (with
cascade for pre-orders). -/
def reapplyLocalDelete (db : DB) (entityType : EntityType) (entityId : String)
    (nowIso : String) : DB :=
  match entityType with
  | .pre_order =>
    match tableGet db.pre_orders entityId with
    | none => db
    | some existing =>
      let db1 :=
        { db with pre_orders := tableUpdate db.pre_orders entityId (softDeletePatch existing nowIso) }
      cascadeSoftDeleteFlows db1 entityId nowIso
  | .pre_order_flow =>
    match tableGet db.pre_order_flows entityId with
    | none => db
    | some existing =>
      { db with
        pre_order_flows := tableUpdate db.pre_order_flows entityId (softDeletePatch existing nowIso) }

/-- `PullService.reapplyLocalOperation`: UPDATE and DELETE are
re-applied; CREATE needs no re-application. -/
def reapplyLocalOperation (db : DB) (localOp : OutboxOperation) (nowIso : String) : DB :=
  match localOp.operation_type with
  | .UPDATE => reapplyLocalUpdate db localOp.entity_type localOp.entity_id localOp.data
  | .DELETE => reapplyLocalDelete db localOp.entity_type localOp.entity_id nowIso
  | .CREATE => db

/-- `PullService.rebaseEntity`: apply the server operation first; if the
entity row no longer exists, only warn (the local pending operations
will be rejected on push); otherwise re-apply each local pending
operation onto the entity row. The outbox is never modified. -/
def rebaseEntity (db : DB) (serverOp : PullOperation) (localOps : List OutboxOperation)
    (nowIso : String) : DB :=
  let db1 := applyOperation db serverOp nowIso
  match getEntity db1 serverOp.entity_type serverOp.entity_id with
  | none => db1
  | some _ => localOps.foldl (fun d lop => reapplyLocalOperation d lop nowIso) db1

/-- `Repository.recordOperation`: append an outbox record (id from the
generator, status `pending`, `retry_count` 0; `addOutboxOperation`
assigns the sequence number). -/
def recordOperation (db : DB) (entityType : EntityType) (entityId : String)
    (operation : OpType) (data : Obj) (nowIso : String) (opId : String) : DB :=
  addOutboxOperation db
    { id := opId
      entity_type := entityType
      entity_id := entityId
      operation_type := operation
      data := data
      timestamp := nowIso
      status := .pending
      retry_count := 0
      sequence_number := 0
      next_retry_at := none
      last_error := none }

/-- `Repository.update(id, data)`: read the current row (not-found error
when absent), write the merged row with `version = current.version + 1`
and `updated_at = now`, and record an UPDATE outbox operation whose
`data` is the merged row. -/
def repositoryUpdate (db : DB) (entityType : EntityType) (id : String)
    (data : Obj) (nowIso : String) (opId : String) : Except String DB :=
  let table := repoTable db entityType
  match tableGet table id with
  | none => .error (entityTypeName entityType ++ " with id " ++ id ++ " not found")
  | some current =>
    let updated :=
      objInsert
        (objInsert
          (objInsert (objMerge current data) "id" (.vstr id))
          "version" (valuePlusOne (objLookup current "version")))
        "updated_at" (.vstr nowIso)
    let db1 := setRepoTable db entityType (tablePut table id updated)
    .ok (recordOperation db1 entityType id .UPDATE updated nowIso opId)

/-- `Repository.delete(id)`: read the current row (not-found error when
absent), record a DELETE outbox operation with
`data = { version: current.version }`, then delete the row from the
table. -/
def repositoryDelete (db : DB) (entityType : EntityType) (id : String)
    (nowIso : String) (opId : String) : Except String DB :=
  let table := repoTable db entityType
  match tableGet table id with
  | none => .error (entityTypeName entityType ++ " with id " ++ id ++ " not found")
  | some current =>
    let db1 := recordOperation db entityType id .DELETE
      [("version", (objLookup current "version").getD .vnull)] nowIso opId
    .ok (setRepoTable db1 entityType (tableDelete (repoTable db1 entityType) id))

/-- Lookup in a `new Map(rows.map((r) => [r.id, r]))`-style map: the
first row whose `id` property equals the key value (`none` models
`Map.get(undefined)`, always a miss for these maps). -/
def findByIdProp (t : Table) (key : Option Value) : Option Obj :=
  match key with
  | some v => (t.find? (fun p => objLookup p.2 "id" = some v)).map (fun p => p.2)
  | none => none

/-- An enriched flow of the recap view (`getRecapFromLocalDb` in
`use-recap.ts`): the copied flow fields plus the joined product and
unit rows. Property reads on the raw row are `Option Value`
(`none` = absent). -/
structure EnrichedFlow where
  id : Option Value
  pre_order_id : Option Value
  product_id : Option Value
  quantity : Option Value
  price : Option Value
  unit_id : Option Value
  comment : Option Value
  created_at : Option Value
  updated_at : Option Value
  product : Option Obj
  unit : Option Obj
  deriving DecidableEq, Repr

/-- An enriched pre-order of the recap view with its joined partner and
flows. -/
structure EnrichedOrder where
  id : Option Value
  partner_id : Option Value
  status : Option Value
  order_date : Option Value
  delivery_date : Option Value
  comment : Option Value
  created_at : Option Value
  updated_at : Option Value
  partner : Obj
  flows : List EnrichedFlow
  deriving DecidableEq, Repr

/-- One partner group of the recap view (`RecapGroup`). -/
structure RecapGroup where
  partner : Obj
  pre_orders : List EnrichedOrder
  deriving DecidableEq, Repr

/-- The flow-to-view projection of `getRecapFromLocalDb`, with the
product and unit joined through their id-keyed maps. -/
def enrichFlow (db : DB) (f : Obj) : EnrichedFlow :=
  { id := objLookup f "id"
    pre_order_id := objLookup f "pre_order_id"
    product_id := objLookup f "product_id"
    quantity := objLookup f "quantity"
    price := objLookup f "price"
    unit_id := objLookup f "unit_id"
    comment := objLookup f "comment"
    created_at := objLookup f "created_at"
    updated_at := objLookup f "updated_at"
    product := findByIdProp db.products (objLookup f "product_id")
    unit := findByIdProp db.units (objLookup f "unit_id") }

/-- The pre-order-to-view projection of `getRecapFromLocalDb`: the
copied fields, the joined partner and the flows of the group keyed by
`po.id` (`flowsByPreOrderId.get(po.id) ?? []`). -/
def enrichOrder (db : DB) (po : Obj) (partner : Obj) (allFlows : Table) : EnrichedOrder :=
  { id := objLookup po "id"
    partner_id := objLookup po "partner_id"
    status := objLookup po "status"
    order_date := objLookup po "order_date"
    delivery_date := objLookup po "delivery_date"
    comment := objLookup po "comment"
    created_at := objLookup po "created_at"
    updated_at := objLookup po "updated_at"
    partner := partner
    flows :=
      match objLookup po "id" with
      | some v =>
        (allFlows.filter (fun fp => objLookup fp.2 "pre_order_id" = some v)).map
          (fun fp => enrichFlow db fp.2)
      | none => [] }

/-- Append an enriched order to its partner's group, creating the group
at the end on first occurrence (the `groupMap` loop; the map is keyed
by the `po.partner_id` value). -/
def addToGroup (pid : Value) (partner : Obj) (enriched : EnrichedOrder) :
    List (Value × RecapGroup) → List (Value × RecapGroup)
  | [] => [(pid, { partner := partner, pre_orders := [enriched] })]
  | g :: t =>
    if g.1 = pid then
      (pid, { g.2 with pre_orders := g.2.pre_orders ++ [enriched] }) :: t
    else
      g :: addToGroup pid partner enriched t

/-- `getRecapFromLocalDb(date)` (`use-recap.ts`): the pre-orders whose
`delivery_date` equals the date, joined with partners, products, units
and their flows, grouped by partner in first-occurrence order. The
query applies no `deleted_at` filter. -/
def getRecapFromLocalDb (db : DB) (date : String) : List RecapGroup :=
  let preOrders := db.pre_orders.filter (fun p =>
    objLookup p.2 "delivery_date" = some (.vstr date))
  if preOrders = [] then
    []
  else
    let preOrderIds := preOrders.filterMap (fun p => objLookup p.2 "id")
    let allFlows := db.pre_order_flows.filter (fun fp =>
      match objLookup fp.2 "pre_order_id" with
      | some v => v ∈ preOrderIds
      | none => false)
    let groups := preOrders.foldl
      (fun acc pp =>
        match objLookup pp.2 "partner_id" with
        | some pidV =>
          match findByIdProp db.partners (some pidV) with
          | some partner =>
            addToGroup pidV partner (enrichOrder db pp.2 partner allFlows) acc
          | none => acc
        | none => acc)
      []
    groups.map (fun g => g.2)

/-- Well-formedness of an association list: pairwise distinct keys.
Every object a JavaScript program builds has this shape. -/
def objWF {β : Type} (l : List (String × β)) : Prop :=
  (l.map Prod.fst).Nodup

/-! Concrete stores and operations used by the individual claim
theorems, counterexamples and witnesses. Each claim uses its own
fixtures. -/

/-- Fixture for claim C1: a stored pre-order at version 1. -/
def c1row : Obj :=
  [("id", .vstr "X"), ("partner_id", .vstr "P1"), ("status", .vint 0),
   ("comment", .vnull), ("version", .vint 1),
   ("created_at", .vstr "t0"), ("updated_at", .vstr "t0"), ("deleted_at", .vnull)]

/-- Fixture for claim C1: a store holding only that pre-order. -/
def c1db : DB :=
  { pre_orders := [("X", c1row)], pre_order_flows := [], partners := [],
    products := [], units := [], metadata := [], outbox := [] }

/-- Fixture for claim C2's witness: an offline CREATE of a pre-order. -/
def c2create : OutboxOperation :=
  { id := "opC", entity_type := .pre_order, entity_id := "X",
    operation_type := .CREATE,
    data := [("id", .vstr "X"), ("partner_id", .vstr "P1"), ("status", .vint 0),
             ("comment", .vnull), ("version", .vint 1)],
    timestamp := "t1", status := .pending, retry_count := 0,
    sequence_number := 1, next_retry_at := none, last_error := none }

/-- Fixture for claim C2's witness: first follow-up UPDATE
(`status -> 1`). -/
def c2update1 : OutboxOperation :=
  { id := "opU1", entity_type := .pre_order, entity_id := "X",
    operation_type := .UPDATE,
    data := [("status", .vint 1), ("version", .vint 2)],
    timestamp := "t2", status := .pending, retry_count := 0,
    sequence_number := 2, next_retry_at := none, last_error := none }

/-- Fixture for claim C2's witness: second follow-up UPDATE
(`comment -> "hello"`). -/
def c2update2 : OutboxOperation :=
  { id := "opU2", entity_type := .pre_order, entity_id := "X",
    operation_type := .UPDATE,
    data := [("comment", .vstr "hello"), ("version", .vint 3)],
    timestamp := "t3", status := .pending, retry_count := 0,
    sequence_number := 3, next_retry_at := none, last_error := none }

/-- Fixture for claim C3's witness: the stored pre-order X at version 1,
status 0. -/
def c3row : Obj :=
  [("id", .vstr "X"), ("partner_id", .vstr "P1"), ("status", .vint 0),
   ("version", .vint 1), ("updated_at", .vstr "t0"), ("deleted_at", .vnull)]

/-- Fixture for claim C3's witness: the in-flight UPDATE operation. -/
def c3opU : OutboxOperation :=
  { id := "u1", entity_type := .pre_order, entity_id := "X",
    operation_type := .UPDATE, data := [("status", .vint 1), ("version", .vint 1)],
    timestamp := "t1", status := .syncing, retry_count := 0,
    sequence_number := 1, next_retry_at := none, last_error := none }

/-- Fixture for claim C3's witness: the in-flight DELETE operation. -/
def c3opD : OutboxOperation :=
  { id := "d1", entity_type := .pre_order, entity_id := "X",
    operation_type := .DELETE, data := [("version", .vint 1)],
    timestamp := "t2", status := .syncing, retry_count := 0,
    sequence_number := 2, next_retry_at := none, last_error := none }

/-- Fixture for claim C3's witness: the store holding pre-order X and
the two in-flight outbox rows. -/
def c3db : DB :=
  { pre_orders := [("X", c3row)], pre_order_flows := [], partners := [],
    products := [], units := [], metadata := [], outbox := [c3opU, c3opD] }

/-- Fixture for claim C3's witness: the resolved field conflict (the
server won field `status` with value 2). -/
def c3conflict : ResolvedFieldConflict :=
  { field := "status", client_value := .vint 1, server_value := .vint 2,
    winner := .server }

/-- Fixture for claim C3's witness: a conflict result for the UPDATE
(the server won field `status` with value 2, new version 3). -/
def c3resA : PushOperationResult :=
  { operation_id := "u1", status := .conflict, sync_id := some 10,
    new_version := some 3, message := some "resolved with conflicts",
    conflicts := some [c3conflict] }

/-- Fixture for claim C3's witness: a conflict result for the DELETE
(the server refused the delete, new version 4). -/
def c3resB : PushOperationResult :=
  { operation_id := "d1", status := .conflict, sync_id := none,
    new_version := some 4, message := some "delete refused",
    conflicts := none }

/-- Fixture for claim C4: a store holding one pre-order at version 1. -/
def c4db : DB :=
  { pre_orders :=
      [("X", [("id", .vstr "X"), ("partner_id", .vstr "P1"), ("status", .vint 0),
              ("comment", .vnull), ("version", .vint 1),
              ("created_at", .vstr "t0"), ("updated_at", .vstr "t0"),
              ("deleted_at", .vnull)])],
    pre_order_flows := [], partners := [], products := [], units := [],
    metadata := [], outbox := [] }

/-- Fixture for claim C9: a soft-deleted pre-order for 2024-06-15. -/
def c9row : Obj :=
  [("id", .vstr "O1"), ("partner_id", .vstr "P1"), ("status", .vint 0),
   ("order_date", .vnull), ("delivery_date", .vstr "2024-06-15"),
   ("comment", .vnull), ("created_at", .vstr "t0"), ("updated_at", .vstr "t1"),
   ("version", .vint 2), ("deleted_at", .vstr "t1")]

/-- Fixture for claim C9: the store with the soft-deleted pre-order and
its partner. -/
def c9db : DB :=
  { pre_orders := [("O1", c9row)],
    pre_order_flows := [],
    partners := [("P1", [("id", .vstr "P1"), ("name", .vstr "Partner One")])],
    products := [], units := [], metadata := [], outbox := [] }

/-- Fixture for claim C5's witness: an offline CREATE of pre-order X. -/
def c5create : OutboxOperation :=
  { id := "a1", entity_type := .pre_order, entity_id := "X",
    operation_type := .CREATE,
    data := [("id", .vstr "X"), ("partner_id", .vstr "P1"), ("status", .vint 0),
             ("version", .vint 1)],
    timestamp := "t1", status := .pending, retry_count := 0,
    sequence_number := 1, next_retry_at := none, last_error := none }

/-- Fixture for claim C5's witness: the offline DELETE of the same
pre-order. -/
def c5delete : OutboxOperation :=
  { id := "a2", entity_type := .pre_order, entity_id := "X",
    operation_type := .DELETE, data := [("version", .vint 1)],
    timestamp := "t2", status := .pending, retry_count := 0,
    sequence_number := 2, next_retry_at := none, last_error := none }

/-- Fixture for claim C5's witness: the store whose outbox holds the
CREATE + DELETE pair. -/
def c5db : DB :=
  { pre_orders := [], pre_order_flows := [], partners := [], products := [],
    units := [], metadata := [], outbox := [c5create, c5delete] }

/-- Fixture for claim C6's witness: a pending outbox operation. -/
def c6op : OutboxOperation :=
  { id := "op1", entity_type := .pre_order, entity_id := "X",
    operation_type := .UPDATE, data := [("status", .vint 1), ("version", .vint 1)],
    timestamp := "t1", status := .pending, retry_count := 0,
    sequence_number := 1, next_retry_at := none, last_error := none }

/-- Fixture for claim C6's witness: a store whose outbox holds that
operation. -/
def c6db : DB :=
  { pre_orders := [], pre_order_flows := [], partners := [], products := [],
    units := [], metadata := [], outbox := [c6op] }

/-- Fixture for claim C6's witness: the expected outbox row after
`markOperationFailed` at `now = 5000` ms with message "boom". -/
def c6opFailed : OutboxOperation :=
  { c6op with
      status := .failed
      retry_count := 1
      next_retry_at := some 6000
      last_error := some "boom" }

/-- Fixture for claim C7: a pre-order at version 1 with status 0. -/
def c7row : Obj :=
  [("id", .vstr "X"), ("partner_id", .vstr "P1"), ("status", .vint 0),
   ("order_date", .vnull), ("delivery_date", .vstr "2024-06-15"),
   ("comment", .vnull), ("created_at", .vstr "t0"), ("updated_at", .vstr "t0"),
   ("version", .vint 1), ("deleted_at", .vnull)]

/-- Fixture for claim C7: a local pending UPDATE (`status -> 1`) on that
pre-order. -/
def c7localUpd : OutboxOperation :=
  { id := "lop1", entity_type := .pre_order, entity_id := "X",
    operation_type := .UPDATE, data := [("status", .vint 1), ("version", .vint 1)],
    timestamp := "t1", status := .pending, retry_count := 0,
    sequence_number := 1, next_retry_at := none, last_error := none }

/-- Fixture for claim C7: the store holding the pre-order and the
pending UPDATE. -/
def c7db : DB :=
  { pre_orders := [("X", c7row)], pre_order_flows := [], partners := [],
    products := [], units := [], metadata := [], outbox := [c7localUpd] }

/-- Fixture for claim C7: the server DELETE operation on that entity. -/
def c7serverDel : PullOperation :=
  { sync_id := 7, entity_type := "pre_order", entity_id := "X",
    operation_type := .DELETE, data := [], timestamp := "t8" }

/-- Fixture for claim C7's witness: a server DELETE on an entity that is
absent from the local store. -/
def c7serverDelMissing : PullOperation :=
  { sync_id := 8, entity_type := "pre_order", entity_id := "Y",
    operation_type := .DELETE, data := [], timestamp := "t8" }

/-- Fixture for claim C8: a store with one pre-order at version 1. -/
def c8db : DB :=
  { pre_orders :=
      [("X", [("id", .vstr "X"), ("partner_id", .vstr "P1"), ("status", .vint 0),
              ("delivery_date", .vstr "2024-06-15"), ("comment", .vnull),
              ("version", .vint 1), ("deleted_at", .vnull)])],
    pre_order_flows := [], partners := [], products := [], units := [],
    metadata := [], outbox := [] }

/-- Fixture for claim C8: a pulled server DELETE on that pre-order. -/
def c8del : PullOperation :=
  { sync_id := 3, entity_type := "pre_order", entity_id := "X",
    operation_type := .DELETE, data := [], timestamp := "t5" }

/-- Fixture for claim C8's witness: a pulled server UPDATE on that
pre-order. -/
def c8upd : PullOperation :=
  { sync_id := 4, entity_type := "pre_order", entity_id := "X",
    operation_type := .UPDATE,
    data := [("comment", .vstr "remote"), ("version", .vint 2)],
    timestamp := "t6" }

/-- Fixture for claim C10's witness: an offline CREATE of pre-order `X`. -/
def c10opC : OutboxOperation :=
  { id := "b1", entity_type := .pre_order, entity_id := "X",
    operation_type := .CREATE,
    data := [("id", .vstr "X"), ("partner_id", .vstr "P1"), ("status", .vint 0),
             ("version", .vint 1)],
    timestamp := "t1", status := .pending, retry_count := 0,
    sequence_number := 1, next_retry_at := none, last_error := none }

/-- Fixture for claim C10's witness: a follow-up offline UPDATE of the same
pre-order, coalesced away into the CREATE before the push. -/
def c10opU : OutboxOperation :=
  { id := "b2", entity_type := .pre_order, entity_id := "X",
    operation_type := .UPDATE,
    data := [("status", .vint 1), ("version", .vint 2)],
    timestamp := "t2", status := .pending, retry_count := 0,
    sequence_number := 2, next_retry_at := none, last_error := none }

/-- Fixture for claim C10's witness: the store whose outbox holds the
CREATE + UPDATE pair. -/
def c10db : DB :=
  { pre_orders := [], pre_order_flows := [], partners := [], products := [],
    units := [], metadata := [], outbox := [c10opC, c10opU] }

/-- Fixture for claim C10's witness: the CREATE record as it stands after the
transport failure (failed, one retry recorded, scheduled at `0 + 1000` ms,
data untouched). -/
def c10opCFailed : OutboxOperation :=
  { id := "b1", entity_type := .pre_order, entity_id := "X",
    operation_type := .CREATE,
    data := [("id", .vstr "X"), ("partner_id", .vstr "P1"), ("status", .vint 0),
             ("version", .vint 1)],
    timestamp := "t1", status := .failed, retry_count := 1,
    sequence_number := 1, next_retry_at := some 1000, last_error := some "boom" }

/-! Shared lemmas about the association-list primitives. -/

theorem assocGet_assocPut_self {β : Type} (l : List (String × β)) (k : String) (v : β) :
    assocGet (assocPut l k v) k = some v := by
  induction l with
  | nil => simp [assocPut, assocGet]
  | cons p t ih =>
    by_cases h : p.1 = k
    · simp [assocPut, h, assocGet]
    · simp [assocPut, h, assocGet, ih]

theorem assocGet_assocPut_ne {β : Type} (l : List (String × β)) {k k' : String} (v : β)
    (h : k' ≠ k) : assocGet (assocPut l k' v) k = assocGet l k := by
  induction l with
  | nil => simp [assocPut, assocGet, h]
  | cons p t ih =>
    by_cases hp : p.1 = k'
    · simp [assocPut, hp, assocGet, h, hp ▸ h]
    · simp [assocPut, hp, assocGet, ih]

theorem assocPut_assocPut {β : Type} (l : List (String × β)) (k : String) (v v' : β) :
    assocPut (assocPut l k v) k v' = assocPut l k v' := by
  induction l with
  | nil => simp [assocPut]
  | cons p t ih =>
    by_cases h : p.1 = k
    · simp [assocPut, h]
    · simp [assocPut, h, ih]

theorem keys_objErase {o : Obj} {k : String} : ∀ p ∈ objErase o k, p.1 ≠ k := by
  intro p hp
  have := List.of_mem_filter hp
  simpa using this

theorem objLookup_objMerge_absent (a : Obj) {b : Obj} {k : String}
    (h : ∀ p ∈ b, p.1 ≠ k) : objLookup (objMerge a b) k = objLookup a k := by
  induction b generalizing a with
  | nil => rfl
  | cons p t ih =>
    have hp : p.1 ≠ k := h p (by simp)
    have ht : ∀ q ∈ t, q.1 ≠ k := fun q hq => h q (by simp [hq])
    show objLookup (objMerge (objInsert a p.1 p.2) t) k = objLookup a k
    rw [ih (objInsert a p.1 p.2) ht]
    exact assocGet_assocPut_ne a p.2 hp

theorem objLookup_mergeStrippedData (init : Obj) (later : List OutboxOperation) :
    objLookup (mergeStrippedData init later) "version" = objLookup init "version" := by
  induction later generalizing init with
  | nil => rfl
  | cons op t ih =>
    show objLookup (mergeStrippedData (objMerge init (objErase op.data "version")) t) "version" = _
    rw [ih, objLookup_objMerge_absent init keys_objErase]

theorem getLastD_cons_mem {α : Type} (a : α) (l : List α) (d : α) :
    (a :: l).getLastD d ∈ a :: l := by
  induction l generalizing a d with
  | nil => simp [List.getLastD]
  | cons b t ih =>
    rw [List.getLastD_cons]
    exact List.mem_cons_of_mem a (ih b a)

theorem mem_assocPut {β : Type} {l : List (String × β)} {k : String} {v : β} :
    ∀ p ∈ assocPut l k v, p = (k, v) ∨ p ∈ l := by
  induction l with
  | nil => simp [assocPut]
  | cons q t ih =>
    intro p hp
    by_cases h : q.1 = k
    · simp only [assocPut, if_pos h] at hp
      rcases List.mem_cons.mp hp with hp | hp
      · exact Or.inl hp
      · exact Or.inr (List.mem_cons_of_mem q hp)
    · simp only [assocPut, if_neg h] at hp
      rcases List.mem_cons.mp hp with hp | hp
      · exact Or.inr (hp ▸ List.mem_cons_self q t)
      · rcases ih p hp with h' | h'
        · exact Or.inl h'
        · exact Or.inr (List.mem_cons_of_mem q h')

theorem assocPut_eq_self_of_get {β : Type} {l : List (String × β)} {k : String} {v : β}
    (h : assocGet l k = some v) : assocPut l k v = l := by
  induction l with
  | nil => simp [assocGet] at h
  | cons p t ih =>
    by_cases hp : p.1 = k
    · simp only [assocGet, if_pos hp] at h
      have : p = (k, v) := by
        cases p
        cases h
        cases hp
        rfl
      simp [assocPut, hp, this]
    · simp only [assocGet, if_neg hp] at h
      simp [assocPut, hp, ih h]

theorem objWF_assocPut {β : Type} {l : List (String × β)} {k : String} {v : β}
    (h : objWF l) : objWF (assocPut l k v) := by
  induction l with
  | nil => simp [assocPut, objWF]
  | cons p t ih =>
    rw [objWF, List.map_cons, List.nodup_cons] at h
    by_cases hp : p.1 = k
    · have hgoal : objWF ((k, v) :: t) := by
        rw [objWF, List.map_cons, List.nodup_cons]
        exact ⟨hp ▸ h.1, h.2⟩
      simp only [assocPut, if_pos hp]
      exact hgoal
    · have ht := ih h.2
      have hkey : p.1 ∉ (assocPut t k v).map Prod.fst := by
        intro hm
        rcases List.mem_map.mp hm with ⟨q, hq, hq1⟩
        rcases mem_assocPut q hq with rfl | hq'
        · exact hp hq1.symm
        · exact h.1 (hq1 ▸ List.mem_map_of_mem Prod.fst hq')
      have hgoal : objWF (p :: assocPut t k v) := by
        rw [objWF, List.map_cons, List.nodup_cons]
        exact ⟨hkey, ht⟩
      simp only [assocPut, if_neg hp]
      exact hgoal

theorem objWF_objMerge {a : Obj} (b : Obj) (h : objWF a) : objWF (objMerge a b) := by
  induction b generalizing a with
  | nil => exact h
  | cons p t ih =>
    show objWF (objMerge (objInsert a p.1 p.2) t)
    exact ih (objWF_assocPut h)

theorem objLookup_objMerge_present (a : Obj) {b : Obj} {k : String} {v : Value}
    (hwf : objWF b) (h : objLookup b k = some v) :
    objLookup (objMerge a b) k = some v := by
  induction b generalizing a with
  | nil => simp [objLookup, assocGet] at h
  | cons p t ih =>
    rw [objWF, List.map_cons, List.nodup_cons] at hwf
    by_cases hp : p.1 = k
    · simp only [objLookup, assocGet, if_pos hp] at h
      have hv : p.2 = v := Option.some.inj h
      have habs : ∀ q ∈ t, q.1 ≠ k := by
        intro q hq hqk
        exact hwf.1 (hp ▸ hqk ▸ List.mem_map_of_mem Prod.fst hq)
      show objLookup (objMerge (objInsert a p.1 p.2) t) k = some v
      rw [objLookup_objMerge_absent _ habs, hp, hv]
      exact assocGet_assocPut_self a k v
    · simp only [objLookup, assocGet, if_neg hp] at h
      show objLookup (objMerge (objInsert a p.1 p.2) t) k = some v
      exact ih (objInsert a p.1 p.2) hwf.2 h

theorem objMerge_objMerge_self : ∀ (b : Obj), objWF b →
    ∀ a, objMerge (objMerge a b) b = objMerge a b := by
  intro b
  induction b with
  | nil => intro _ a; rfl
  | cons p t ih =>
    intro hwf a
    rw [objWF, List.map_cons, List.nodup_cons] at hwf
    have habs : ∀ q ∈ t, q.1 ≠ p.1 := by
      intro q hq hqk
      exact hwf.1 (hqk ▸ List.mem_map_of_mem Prod.fst hq)
    show objMerge (objInsert (objMerge (objInsert a p.1 p.2) t) p.1 p.2) t = _
    have hBk : objLookup (objMerge (objInsert a p.1 p.2) t) p.1 = some p.2 := by
      rw [objLookup_objMerge_absent _ habs]
      exact assocGet_assocPut_self a p.1 p.2
    rw [show objInsert (objMerge (objInsert a p.1 p.2) t) p.1 p.2 =
          objMerge (objInsert a p.1 p.2) t from assocPut_eq_self_of_get hBk]
    exact ih hwf.2 (objInsert a p.1 p.2)

theorem keys_pickFieldsAux {source : Obj} {P : String → Prop} :
    ∀ (fields : List String) (acc : Obj), (∀ p ∈ acc, P p.1) → (∀ f ∈ fields, P f) →
      ∀ p ∈ pickFieldsAux source acc fields, P p.1 := by
  intro fields
  induction fields with
  | nil => intro acc hacc _ p hp; exact hacc p hp
  | cons f fs ih =>
    intro acc hacc hf p hp
    have hfs : ∀ g ∈ fs, P g := fun g hg => hf g (List.mem_cons_of_mem f hg)
    cases hlv : objLookup source f with
    | none =>
      rw [pickFieldsAux, hlv] at hp
      exact ih acc hacc hfs p hp
    | some v =>
      rw [pickFieldsAux, hlv] at hp
      refine ih _ ?_ hfs p hp
      intro q hq
      rcases mem_assocPut q hq with rfl | hq'
      · exact hf f (List.mem_cons_self f fs)
      · exact hacc q hq'

theorem keys_pickFields {source : Obj} {fields : List String} :
    ∀ p ∈ pickFields source fields, p.1 ∈ fields :=
  keys_pickFieldsAux fields [] (by simp) (fun _ hf => hf)

theorem objWF_pickFieldsAux {source : Obj} :
    ∀ (fields : List String) (acc : Obj), objWF acc → objWF (pickFieldsAux source acc fields) := by
  intro fields
  induction fields with
  | nil => intro acc hacc; exact hacc
  | cons f fs ih =>
    intro acc hacc
    cases hlv : objLookup source f with
    | none => rw [pickFieldsAux, hlv]; exact ih acc hacc
    | some v => rw [pickFieldsAux, hlv]; exact ih _ (objWF_assocPut hacc)

theorem coalesceValue_coalesceValue (x : Option Value) (d : Value) :
    coalesceValue x (coalesceValue x d) = coalesceValue x d := by
  cases x with
  | none => rfl
  | some v => cases v <;> rfl

theorem objLookup_withKeyIfPresent_ne {data : Obj} {k' k : String} (o : Obj)
    (h : k' ≠ k) : objLookup (withKeyIfPresent data k' o) k = objLookup o k := by
  unfold withKeyIfPresent
  cases objLookup data k' with
  | none => rfl
  | some v => exact assocGet_assocPut_ne o _ h

theorem objWF_withKeyIfPresent {data : Obj} {k : String} {o : Obj}
    (h : objWF o) : objWF (withKeyIfPresent data k o) := by
  unfold withKeyIfPresent
  cases objLookup data k with
  | none => exact h
  | some v => exact objWF_assocPut h

theorem objLookup_buildPullUpdatePatch_version {existing data : Obj} {fields : List String}
    (hf : "version" ∉ fields) :
    objLookup (buildPullUpdatePatch existing data fields) "version" =
      some (coalesceValue (objLookup data "version")
        ((objLookup existing "version").getD .vnull)) := by
  unfold buildPullUpdatePatch
  rw [objLookup_withKeyIfPresent_ne _ (by decide),
      objLookup_withKeyIfPresent_ne _ (by decide),
      objLookup_objMerge_absent _ (fun p hp hpk => hf (by
        have := keys_pickFields p hp
        rwa [hpk] at this))]
  exact assocGet_assocPut_self [] "version" _

theorem objWF_buildPullUpdatePatch {existing data : Obj} {fields : List String} :
    objWF (buildPullUpdatePatch existing data fields) := by
  unfold buildPullUpdatePatch
  apply objWF_withKeyIfPresent
  apply objWF_withKeyIfPresent
  apply objWF_objMerge
  simp [objInsert, assocPut, objWF]

theorem buildPullUpdatePatch_eq_of_version (e1 e2 data : Obj) (fields : List String)
    (h : coalesceValue (objLookup data "version") ((objLookup e1 "version").getD .vnull)
       = coalesceValue (objLookup data "version") ((objLookup e2 "version").getD .vnull)) :
    buildPullUpdatePatch e1 data fields = buildPullUpdatePatch e2 data fields := by
  unfold buildPullUpdatePatch
  rw [h]

theorem buildPullUpdatePatch_stable {existing data : Obj} {fields : List String}
    (hf : "version" ∉ fields) :
    buildPullUpdatePatch (objMerge existing (buildPullUpdatePatch existing data fields))
        data fields
      = buildPullUpdatePatch existing data fields := by
  apply buildPullUpdatePatch_eq_of_version
  rw [objLookup_objMerge_present existing objWF_buildPullUpdatePatch
    (objLookup_buildPullUpdatePatch_version hf)]
  simp only [Option.getD_some]
  exact coalesceValue_coalesceValue _ _

theorem applyPreOrderOperation_create_idem (db : DB) (entityId : String) (data : Obj)
    (nowIso : String) :
    applyPreOrderOperation (applyPreOrderOperation db entityId .CREATE data nowIso)
        entityId .CREATE data nowIso
      = applyPreOrderOperation db entityId .CREATE data nowIso := by
  simp [applyPreOrderOperation, tablePut, assocPut_assocPut]

theorem applyPreOrderOperation_update_idem (db : DB) (entityId : String) (data : Obj)
    (nowIso : String) :
    applyPreOrderOperation (applyPreOrderOperation db entityId .UPDATE data nowIso)
        entityId .UPDATE data nowIso
      = applyPreOrderOperation db entityId .UPDATE data nowIso := by
  cases hget : tableGet db.pre_orders entityId with
  | none => simp only [applyPreOrderOperation, hget]
  | some existing =>
    simp only [applyPreOrderOperation, hget]
    have hupdPut : tableUpdate db.pre_orders entityId
        (buildPullUpdatePatch existing data PRE_ORDER_UPDATEABLE_FIELDS) =
        tablePut db.pre_orders entityId
          (objMerge existing (buildPullUpdatePatch existing data PRE_ORDER_UPDATEABLE_FIELDS)) := by
      unfold tableUpdate
      rw [hget]
    rw [hupdPut]
    have hget2 : tableGet (tablePut db.pre_orders entityId
        (objMerge existing (buildPullUpdatePatch existing data PRE_ORDER_UPDATEABLE_FIELDS)))
        entityId =
        some (objMerge existing (buildPullUpdatePatch existing data PRE_ORDER_UPDATEABLE_FIELDS)) :=
      assocGet_assocPut_self _ _ _
    simp only [hget2]
    rw [buildPullUpdatePatch_stable (by decide)]
    have h3 : tableUpdate
        (tablePut db.pre_orders entityId
          (objMerge existing (buildPullUpdatePatch existing data PRE_ORDER_UPDATEABLE_FIELDS)))
        entityId (buildPullUpdatePatch existing data PRE_ORDER_UPDATEABLE_FIELDS) =
        tablePut db.pre_orders entityId
          (objMerge existing (buildPullUpdatePatch existing data PRE_ORDER_UPDATEABLE_FIELDS)) := by
      unfold tableUpdate
      rw [hget2]
      show tablePut _ entityId
          (objMerge (objMerge existing (buildPullUpdatePatch existing data PRE_ORDER_UPDATEABLE_FIELDS))
            (buildPullUpdatePatch existing data PRE_ORDER_UPDATEABLE_FIELDS)) = _
      rw [objMerge_objMerge_self _ objWF_buildPullUpdatePatch existing]
      exact assocPut_assocPut _ _ _ _
    rw [h3]

theorem applyFlowOperation_create_idem (db : DB) (entityId : String) (data : Obj)
    (nowIso : String) :
    applyFlowOperation (applyFlowOperation db entityId .CREATE data nowIso)
        entityId .CREATE data nowIso
      = applyFlowOperation db entityId .CREATE data nowIso := by
  simp [applyFlowOperation, tablePut, assocPut_assocPut]

theorem applyFlowOperation_update_idem (db : DB) (entityId : String) (data : Obj)
    (nowIso : String) :
    applyFlowOperation (applyFlowOperation db entityId .UPDATE data nowIso)
        entityId .UPDATE data nowIso
      = applyFlowOperation db entityId .UPDATE data nowIso := by
  cases hget : tableGet db.pre_order_flows entityId with
  | none => simp only [applyFlowOperation, hget]
  | some existing =>
    simp only [applyFlowOperation, hget]
    have hupdPut : tableUpdate db.pre_order_flows entityId
        (buildPullUpdatePatch existing data PRE_ORDER_FLOW_UPDATEABLE_FIELDS) =
        tablePut db.pre_order_flows entityId
          (objMerge existing (buildPullUpdatePatch existing data PRE_ORDER_FLOW_UPDATEABLE_FIELDS)) := by
      unfold tableUpdate
      rw [hget]
    rw [hupdPut]
    have hget2 : tableGet (tablePut db.pre_order_flows entityId
        (objMerge existing (buildPullUpdatePatch existing data PRE_ORDER_FLOW_UPDATEABLE_FIELDS)))
        entityId =
        some (objMerge existing (buildPullUpdatePatch existing data PRE_ORDER_FLOW_UPDATEABLE_FIELDS)) :=
      assocGet_assocPut_self _ _ _
    simp only [hget2]
    rw [buildPullUpdatePatch_stable (by decide)]
    have h3 : tableUpdate
        (tablePut db.pre_order_flows entityId
          (objMerge existing (buildPullUpdatePatch existing data PRE_ORDER_FLOW_UPDATEABLE_FIELDS)))
        entityId (buildPullUpdatePatch existing data PRE_ORDER_FLOW_UPDATEABLE_FIELDS) =
        tablePut db.pre_order_flows entityId
          (objMerge existing (buildPullUpdatePatch existing data PRE_ORDER_FLOW_UPDATEABLE_FIELDS)) := by
      unfold tableUpdate
      rw [hget2]
      show tablePut _ entityId
          (objMerge (objMerge existing (buildPullUpdatePatch existing data PRE_ORDER_FLOW_UPDATEABLE_FIELDS))
            (buildPullUpdatePatch existing data PRE_ORDER_FLOW_UPDATEABLE_FIELDS)) = _
      rw [objMerge_objMerge_self _ objWF_buildPullUpdatePatch existing]
      exact assocPut_assocPut _ _ _ _
    rw [h3]

theorem mem_getPendingOperations {db : DB} {nowMs : Int} {o : OutboxOperation} :
    o ∈ getPendingOperations db nowMs ↔
      o ∈ db.outbox ∧ (o.status = .pending ∨
        (o.status = .failed ∧ ∃ t, o.next_retry_at = some t ∧ t ≤ nowMs)) := by
  unfold getPendingOperations
  rw [(List.perm_insertionSort seqLe _).mem_iff, List.mem_append,
      List.mem_filter, List.mem_filter]
  cases hn : o.next_retry_at with
  | none =>
    simp [hn]
  | some t =>
    simp only [hn, decide_eq_true_eq, Bool.and_eq_true, Option.some.injEq]
    constructor
    · rintro (⟨hm, hs⟩ | ⟨hm, hs, ht⟩)
      · exact ⟨hm, Or.inl hs⟩
      · exact ⟨hm, Or.inr ⟨hs, t, rfl, by simpa using ht⟩⟩
    · rintro ⟨hm, hs | ⟨hs, t', ht', hle⟩⟩
      · exact Or.inl ⟨hm, hs⟩
      · exact Or.inr ⟨hm, hs, by simpa [← ht'] using hle⟩

theorem cascadeSoftDeleteFlows_outbox (db : DB) (entityId nowIso : String) :
    (cascadeSoftDeleteFlows db entityId nowIso).outbox = db.outbox := by
  unfold cascadeSoftDeleteFlows
  have aux : ∀ (l : Table) (d : DB),
      (l.foldl (fun d fp =>
        { d with pre_order_flows := tableUpdate d.pre_order_flows fp.1 (softDeletePatch fp.2 nowIso) })
        d).outbox = d.outbox := by
    intro l
    induction l with
    | nil => intro d; rfl
    | cons fp t ih => intro d; rw [List.foldl_cons]; exact ih _
  exact aux _ db

theorem applyPreOrderOperation_outbox (db : DB) (entityId : String) (ot : OpType)
    (data : Obj) (nowIso : String) :
    (applyPreOrderOperation db entityId ot data nowIso).outbox = db.outbox := by
  unfold applyPreOrderOperation
  cases ot with
  | CREATE => rfl
  | UPDATE => cases tableGet db.pre_orders entityId <;> rfl
  | DELETE =>
    cases tableGet db.pre_orders entityId with
    | none => rfl
    | some existing => exact cascadeSoftDeleteFlows_outbox _ _ _

theorem applyFlowOperation_outbox (db : DB) (entityId : String) (ot : OpType)
    (data : Obj) (nowIso : String) :
    (applyFlowOperation db entityId ot data nowIso).outbox = db.outbox := by
  unfold applyFlowOperation
  cases ot with
  | CREATE => rfl
  | UPDATE => cases tableGet db.pre_order_flows entityId <;> rfl
  | DELETE => cases tableGet db.pre_order_flows entityId <;> rfl

theorem applyOperation_outbox (db : DB) (op : PullOperation) (nowIso : String) :
    (applyOperation db op nowIso).outbox = db.outbox := by
  unfold applyOperation
  by_cases h1 : op.entity_type = "pre_order"
  · rw [if_pos h1]
    exact applyPreOrderOperation_outbox _ _ _ _ _
  · rw [if_neg h1]
    by_cases h2 : op.entity_type = "pre_order_flow"
    · rw [if_pos h2]
      exact applyFlowOperation_outbox _ _ _ _ _
    · rw [if_neg h2]

theorem reapplyLocalUpdate_outbox (db : DB) (et : EntityType) (entityId : String)
    (data : Obj) : (reapplyLocalUpdate db et entityId data).outbox = db.outbox := by
  unfold reapplyLocalUpdate
  cases et with
  | pre_order =>
    cases tableGet db.pre_orders entityId with
    | none => rfl
    | some r =>
      dsimp only
      split <;> rfl
  | pre_order_flow =>
    cases tableGet db.pre_order_flows entityId with
    | none => rfl
    | some r =>
      dsimp only
      split <;> rfl

theorem reapplyLocalDelete_outbox (db : DB) (et : EntityType) (entityId nowIso : String) :
    (reapplyLocalDelete db et entityId nowIso).outbox = db.outbox := by
  unfold reapplyLocalDelete
  cases et with
  | pre_order =>
    cases tableGet db.pre_orders entityId with
    | none => rfl
    | some existing => exact cascadeSoftDeleteFlows_outbox _ _ _
  | pre_order_flow =>
    cases tableGet db.pre_order_flows entityId <;> rfl

theorem reapplyLocalOperation_outbox (db : DB) (localOp : OutboxOperation)
    (nowIso : String) : (reapplyLocalOperation db localOp nowIso).outbox = db.outbox := by
  unfold reapplyLocalOperation
  cases localOp.operation_type with
  | UPDATE => exact reapplyLocalUpdate_outbox _ _ _ _
  | DELETE => exact reapplyLocalDelete_outbox _ _ _ _
  | CREATE => rfl

theorem serverUpdatesOfAux_lookup_absent {k : String} :
    ∀ (cs : List ResolvedFieldConflict) (acc : Obj), (∀ c ∈ cs, c.field ≠ k) →
      objLookup (serverUpdatesOfAux acc cs) k = objLookup acc k := by
  intro cs
  induction cs with
  | nil => intro acc _; rfl
  | cons c cs ih =>
    intro acc h
    rw [serverUpdatesOfAux]
    rw [ih _ (fun c' hc' => h c' (List.mem_cons_of_mem c hc'))]
    by_cases hw : c.winner = .server
    · rw [if_pos hw]
      exact assocGet_assocPut_ne acc _ (h c (List.mem_cons_self c cs))
    · rw [if_neg hw]

theorem serverUpdatesOfAux_lookup {c : ResolvedFieldConflict} :
    ∀ (cs : List ResolvedFieldConflict) (acc : Obj), c ∈ cs → c.winner = .server →
      (cs.map (fun c => c.field)).Nodup →
      objLookup (serverUpdatesOfAux acc cs) c.field = some c.server_value := by
  intro cs
  induction cs with
  | nil => intro acc hc; exact absurd hc (List.not_mem_nil c)
  | cons c' cs ih =>
    intro acc hc hw hnd
    rw [List.map_cons, List.nodup_cons] at hnd
    rcases List.mem_cons.mp hc with rfl | hc'
    · rw [serverUpdatesOfAux, if_pos hw]
      have habs : ∀ c'' ∈ cs, c''.field ≠ c.field := by
        intro c'' hc'' heq
        exact hnd.1 (heq ▸ List.mem_map_of_mem (fun x => x.field) hc'')
      rw [serverUpdatesOfAux_lookup_absent cs _ habs]
      exact assocGet_assocPut_self acc c.field c.server_value
    · rw [serverUpdatesOfAux]
      exact ih _ hc' hw hnd.2

theorem keys_serverUpdatesOfAux {P : String → Prop} :
    ∀ (cs : List ResolvedFieldConflict) (acc : Obj),
      (∀ p ∈ acc, P p.1) → (∀ c ∈ cs, P c.field) →
      ∀ p ∈ serverUpdatesOfAux acc cs, P p.1 := by
  intro cs
  induction cs with
  | nil => intro acc hacc _ p hp; exact hacc p hp
  | cons c cs ih =>
    intro acc hacc h p hp
    rw [serverUpdatesOfAux] at hp
    refine ih _ ?_ (fun c' hc' => h c' (List.mem_cons_of_mem c hc')) p hp
    intro q hq
    by_cases hw : c.winner = .server
    · rw [if_pos hw] at hq
      rcases mem_assocPut q hq with rfl | hq'
      · exact h c (List.mem_cons_self c cs)
      · exact hacc q hq'
    · rw [if_neg hw] at hq
      exact hacc q hq

theorem objWF_serverUpdatesOfAux :
    ∀ (cs : List ResolvedFieldConflict) (acc : Obj), objWF acc →
      objWF (serverUpdatesOfAux acc cs) := by
  intro cs
  induction cs with
  | nil => intro acc hacc; exact hacc
  | cons c cs ih =>
    intro acc hacc
    rw [serverUpdatesOfAux]
    by_cases hw : c.winner = .server
    · rw [if_pos hw]
      exact ih _ (objWF_assocPut hacc)
    · rw [if_neg hw]
      exact ih _ hacc

theorem repoTable_setRepoTable (db : DB) (et : EntityType) (t : Table) :
    repoTable (setRepoTable db et t) et = t := by
  cases et <;> rfl

theorem setRepoTable_outbox (db : DB) (et : EntityType) (t : Table) :
    (setRepoTable db et t).outbox = db.outbox := by
  cases et <;> rfl

theorem repoTable_markOperationSynced (db : DB) (opId : String) (et : EntityType) :
    repoTable (markOperationSynced db opId) et = repoTable db et := by
  cases et <;> rfl

theorem repoTable_markOperationRejected (db : DB) (opId : String) (msg : Option String)
    (et : EntityType) : repoTable (markOperationRejected db opId msg) et = repoTable db et := by
  cases et <;> rfl

theorem updateEntityVersion_eq (db : DB) (et : EntityType) (e : String) (v : Int) :
    updateEntityVersion db et e v =
      setRepoTable db et (tableUpdate (repoTable db et) e [("version", .vint v)]) := by
  cases et <;> rfl

theorem updateEntityVersion_outbox (db : DB) (et : EntityType) (e : String) (v : Int) :
    (updateEntityVersion db et e v).outbox = db.outbox := by
  cases et <;> rfl

theorem objMerge_singleton (a : Obj) (k : String) (v : Value) :
    objMerge a [(k, v)] = objInsert a k v := rfl

theorem mem_markOperationSynced (db : DB) (opId : String) :
    ∀ o ∈ (markOperationSynced db opId).outbox, o.id = opId → o.status = .synced := by
  intro o ho hid
  unfold markOperationSynced at ho
  simp only [List.mem_map] at ho
  obtain ⟨o₀, -, rfl⟩ := ho
  by_cases h : o₀.id = opId
  · rw [if_pos h]
  · rw [if_neg h] at hid
    exact absurd hid h

theorem mem_markOperationRejected (db : DB) (opId : String) (msg : Option String) :
    ∀ o ∈ (markOperationRejected db opId msg).outbox, o.id = opId →
      o.status = .rejected ∧ o.last_error = msg := by
  intro o ho hid
  unfold markOperationRejected at ho
  simp only [List.mem_map] at ho
  obtain ⟨o₀, -, rfl⟩ := ho
  by_cases h : o₀.id = opId
  · rw [if_pos h]
    exact ⟨rfl, rfl⟩
  · rw [if_neg h] at hid
    exact absurd hid h

theorem mem_markOperationsSynced (db : DB) (ids : List String) :
    ∀ op ∈ (markOperationsSynced db ids).outbox, op.id ∈ ids → op.status = .synced := by
  intro op hop hid
  unfold markOperationsSynced at hop
  simp only [List.mem_map] at hop
  obtain ⟨o₀, -, rfl⟩ := hop
  by_cases h : o₀.id ∈ ids
  · rw [if_pos h]
  · rw [if_neg h] at hid
    exact absurd hid h

theorem foldl_reapplyLocalOperation_outbox {nowIso : String} :
    ∀ (localOps : List OutboxOperation) (db : DB),
      (localOps.foldl (fun d lop => reapplyLocalOperation d lop nowIso) db).outbox = db.outbox := by
  intro localOps
  induction localOps with
  | nil => intro db; rfl
  | cons lop t ih =>
    intro db
    rw [List.foldl_cons, ih]
    exact reapplyLocalOperation_outbox _ _ _

theorem markOperationFailed_makes_failed (d : DB) (opId : String) (nowMs : Int)
    (msg : Option String) :
    ∀ o ∈ (markOperationFailed d opId nowMs msg).outbox, o.id = opId →
      o.status = .failed := by
  intro o ho hid
  unfold markOperationFailed at ho
  cases hfind : d.outbox.find? (fun op => op.id = opId) with
  | none =>
    rw [hfind] at ho
    have hnone := List.find?_eq_none.mp hfind o ho
    rw [hid] at hnone
    simp at hnone
  | some op =>
    rw [hfind] at ho
    simp only [List.mem_map] at ho
    obtain ⟨o₀, -, rfl⟩ := ho
    by_cases h : o₀.id = opId
    · rw [if_pos h]
    · rw [if_neg h] at hid
      exact absurd hid h

theorem markOperationFailed_preserve {d : DB} {opId : String} {nowMs : Int}
    {msg : Option String} :
    ∀ o ∈ (markOperationFailed d opId nowMs msg).outbox, o.id ≠ opId →
      o ∈ d.outbox := by
  intro o ho hne
  unfold markOperationFailed at ho
  cases hfind : d.outbox.find? (fun op => op.id = opId) with
  | none =>
    rw [hfind] at ho
    exact ho
  | some op =>
    rw [hfind] at ho
    simp only [List.mem_map] at ho
    obtain ⟨o₀, ho₀, rfl⟩ := ho
    by_cases h : o₀.id = opId
    · rw [if_pos h] at hne
      exact absurd h hne
    · rw [if_neg h]
      exact ho₀

theorem mem_markOperationFailed_src {d : DB} {opId : String} {nowMs : Int}
    {msg : Option String} :
    ∀ o ∈ (markOperationFailed d opId nowMs msg).outbox,
      ∃ o₀ ∈ d.outbox, o₀.id = o.id ∧ o.data = o₀.data := by
  intro o ho
  unfold markOperationFailed at ho
  cases hfind : d.outbox.find? (fun op => op.id = opId) with
  | none =>
    rw [hfind] at ho
    exact ⟨o, ho, rfl, rfl⟩
  | some op =>
    rw [hfind] at ho
    simp only [List.mem_map] at ho
    obtain ⟨o₀, ho₀, rfl⟩ := ho
    by_cases h : o₀.id = opId
    · rw [if_pos h]
      exact ⟨o₀, ho₀, rfl, rfl⟩
    · rw [if_neg h]
      exact ⟨o₀, ho₀, rfl, rfl⟩

theorem foldMarkFailed_preserve {nowMs : Int} {msg : Option String} :
    ∀ (sends : List OutboxOperation) (d : DB),
      ∀ o ∈ (sends.foldl (fun d op => markOperationFailed d op.id nowMs msg) d).outbox,
        o.id ∉ sends.map (fun s => s.id) → o ∈ d.outbox := by
  intro sends
  induction sends with
  | nil => intro d o ho _; exact ho
  | cons s rest ih =>
    intro d o ho hnot
    rw [List.map_cons] at hnot
    have h1 : o.id ∉ rest.map (fun s => s.id) := fun h => hnot (List.mem_cons_of_mem _ h)
    have h2 : o.id ≠ s.id := fun h => hnot (h ▸ List.mem_cons_self _ _)
    rw [List.foldl_cons] at ho
    exact markOperationFailed_preserve o (ih _ o ho h1) h2

theorem foldMarkFailed_failed {nowMs : Int} {msg : Option String} :
    ∀ (sends : List OutboxOperation) (d : DB),
      ∀ o ∈ (sends.foldl (fun d op => markOperationFailed d op.id nowMs msg) d).outbox,
        o.id ∈ sends.map (fun s => s.id) → o.status = .failed := by
  intro sends
  induction sends with
  | nil => intro d o _ hmem; exact absurd hmem (List.not_mem_nil o.id)
  | cons s rest ih =>
    intro d o ho hmem
    rw [List.foldl_cons] at ho
    by_cases h1 : o.id ∈ rest.map (fun s => s.id)
    · exact ih _ o ho h1
    · rw [List.map_cons] at hmem
      rcases List.mem_cons.mp hmem with h2 | h2
      · exact markOperationFailed_makes_failed _ s.id nowMs msg o
          (foldMarkFailed_preserve rest _ o ho h1) h2
      · exact absurd h2 h1

theorem foldMarkFailed_src {nowMs : Int} {msg : Option String} :
    ∀ (sends : List OutboxOperation) (d : DB),
      ∀ o ∈ (sends.foldl (fun d op => markOperationFailed d op.id nowMs msg) d).outbox,
        ∃ o₀ ∈ d.outbox, o₀.id = o.id ∧ o.data = o₀.data := by
  intro sends
  induction sends with
  | nil => intro d o ho; exact ⟨o, ho, rfl, rfl⟩
  | cons s rest ih =>
    intro d o ho
    rw [List.foldl_cons] at ho
    obtain ⟨o₁, ho₁, hid₁, hdata₁⟩ := ih _ o ho
    obtain ⟨o₀, ho₀, hid₀, hdata₀⟩ := mem_markOperationFailed_src o₁ ho₁
    exact ⟨o₀, ho₀, hid₀.trans hid₁, hdata₁.trans hdata₀⟩

theorem markOperationsSyncing_preserve {d : DB} {ids : List String} :
    ∀ o ∈ (markOperationsSyncing d ids).outbox, o.id ∉ ids → o ∈ d.outbox := by
  intro o ho hnot
  unfold markOperationsSyncing at ho
  simp only [List.mem_map] at ho
  obtain ⟨o₀, ho₀, rfl⟩ := ho
  by_cases h : o₀.id ∈ ids
  · rw [if_pos h] at hnot
    exact absurd h hnot
  · rw [if_neg h]
    exact ho₀

theorem mem_markOperationsSyncing_src {d : DB} {ids : List String} :
    ∀ o ∈ (markOperationsSyncing d ids).outbox,
      ∃ o₀ ∈ d.outbox, o₀.id = o.id ∧ o.data = o₀.data := by
  intro o ho
  unfold markOperationsSyncing at ho
  simp only [List.mem_map] at ho
  obtain ⟨o₀, ho₀, rfl⟩ := ho
  by_cases h : o₀.id ∈ ids
  · rw [if_pos h]
    exact ⟨o₀, ho₀, rfl, rfl⟩
  · rw [if_neg h]
    exact ⟨o₀, ho₀, rfl, rfl⟩

theorem mem_markOperationsSynced_src {d : DB} {ids : List String} :
    ∀ o ∈ (markOperationsSynced d ids).outbox,
      ∃ o₀ ∈ d.outbox, o₀.id = o.id ∧ o.data = o₀.data := by
  intro o ho
  unfold markOperationsSynced at ho
  simp only [List.mem_map] at ho
  obtain ⟨o₀, ho₀, rfl⟩ := ho
  by_cases h : o₀.id ∈ ids
  · rw [if_pos h]
    exact ⟨o₀, ho₀, rfl, rfl⟩
  · rw [if_neg h]
    exact ⟨o₀, ho₀, rfl, rfl⟩

theorem coalesceGroup_sent_ids :
    ∀ (g : List OutboxOperation), ∀ op ∈ (coalesceGroup g).1,
      op.id ∈ g.map (fun o => o.id) := by
  intro g
  match g with
  | [] => intro op hop; exact absurd hop (List.not_mem_nil op)
  | [o] =>
    intro op hop
    rw [List.mem_singleton.mp hop]
    exact List.mem_map_of_mem _ (List.mem_singleton_self o)
  | first :: second :: tail =>
    intro op hop
    unfold coalesceGroup at hop
    dsimp only at hop
    split at hop
    · exact absurd hop (List.not_mem_nil op)
    · split at hop
      · rw [List.mem_singleton.mp hop]
        show first.id ∈ _
        exact List.mem_map_of_mem _ (List.mem_cons_self _ _)
      · split at hop
        · dsimp only at hop
          exact List.mem_map_of_mem _ ((List.dropWhile_sublist _).subset hop)
        · split at hop
          · rename_i hlen
            dsimp only at hop
            rcases List.mem_append.mp hop with h | h
            · have hne : (first :: second :: tail).takeWhile
                  (fun o => decide (o.operation_type = OpType.UPDATE)) ≠ [] := by
                intro hemp
                rw [hemp] at hlen
                simp at hlen
              obtain ⟨u, us, hu⟩ := List.exists_cons_of_ne_nil hne
              have hu_mem : u ∈ (first :: second :: tail).takeWhile
                  (fun o => decide (o.operation_type = OpType.UPDATE)) := by
                rw [hu]
                exact List.mem_cons_self u us
              rw [List.mem_singleton.mp h, hu]
              show u.id ∈ _
              exact List.mem_map_of_mem _ ((List.takeWhile_sublist _).subset hu_mem)
            · exact List.mem_map_of_mem _ ((List.dropWhile_sublist _).subset h)
          · dsimp only at hop
            rcases List.mem_append.mp hop with h | h
            · exact List.mem_map_of_mem _ ((List.takeWhile_sublist _).subset h)
            · exact List.mem_map_of_mem _ ((List.dropWhile_sublist _).subset h)

theorem coalesceGroup_removed_ids :
    ∀ (g : List OutboxOperation), ∀ i ∈ (coalesceGroup g).2,
      i ∈ g.map (fun o => o.id) := by
  intro g
  match g with
  | [] => intro i hi; exact absurd hi (List.not_mem_nil i)
  | [o] => intro i hi; exact absurd hi (List.not_mem_nil i)
  | first :: second :: tail =>
    intro i hi
    unfold coalesceGroup at hi
    dsimp only at hi
    split at hi
    · dsimp only at hi
      exact hi
    · split at hi
      · dsimp only at hi
        obtain ⟨o, ho, rfl⟩ := List.mem_map.mp hi
        exact List.mem_map_of_mem _ (List.mem_cons_of_mem first ho)
      · split at hi
        · dsimp only at hi
          obtain ⟨o, ho, rfl⟩ := List.mem_map.mp hi
          exact List.mem_map_of_mem _ ((List.takeWhile_sublist _).subset ho)
        · split at hi
          · dsimp only at hi
            obtain ⟨o, ho, rfl⟩ := List.mem_map.mp hi
            exact List.mem_map_of_mem _
              ((List.takeWhile_sublist _).subset ((List.drop_sublist 1 _).subset ho))
          · dsimp only at hi
            exact absurd hi (List.not_mem_nil i)

theorem coalesceGroup_disjoint :
    ∀ (g : List OutboxOperation), (g.map (fun o => o.id)).Nodup →
      ∀ op ∈ (coalesceGroup g).1, op.id ∉ (coalesceGroup g).2 := by
  intro g
  match g with
  | [] => intro _ op hop; exact absurd hop (List.not_mem_nil op)
  | [o] =>
    intro _ op _ hid
    exact absurd hid (List.not_mem_nil op.id)
  | first :: second :: tail =>
    intro hnd op hop hid
    have hsplitnd : (((first :: second :: tail).takeWhile
          (fun o => decide (o.operation_type = OpType.UPDATE))).map (fun o => o.id)).Nodup ∧
        (((first :: second :: tail).dropWhile
          (fun o => decide (o.operation_type = OpType.UPDATE))).map (fun o => o.id)).Nodup ∧
        (((first :: second :: tail).takeWhile
          (fun o => decide (o.operation_type = OpType.UPDATE))).map (fun o => o.id)).Disjoint
        (((first :: second :: tail).dropWhile
          (fun o => decide (o.operation_type = OpType.UPDATE))).map (fun o => o.id)) := by
      have h := List.takeWhile_append_dropWhile
        (fun o => decide (o.operation_type = OpType.UPDATE)) (first :: second :: tail)
      have hnd2 : ((((first :: second :: tail).takeWhile
            (fun o => decide (o.operation_type = OpType.UPDATE))) ++
          ((first :: second :: tail).dropWhile
            (fun o => decide (o.operation_type = OpType.UPDATE)))).map
          (fun o => o.id)).Nodup := by
        rw [h]
        exact hnd
      rw [List.map_append, List.nodup_append] at hnd2
      exact hnd2
    unfold coalesceGroup at hop hid
    dsimp only at hop hid
    by_cases hc1 : first.operation_type = OpType.CREATE ∧
        ((first :: second :: tail).getLastD first).operation_type = OpType.DELETE
    · rw [if_pos hc1] at hop
      exact absurd hop (List.not_mem_nil op)
    · rw [if_neg hc1] at hop hid
      by_cases hc2 : first.operation_type = OpType.CREATE
      · -- CREATE + UPDATEs: sent is the merged CREATE, removed are the tail ids
        rw [if_pos hc2] at hop hid
        rw [List.mem_singleton.mp hop] at hid
        rw [List.map_cons, List.nodup_cons] at hnd
        exact hnd.1 (show first.id ∈ _ from hid)
      · rw [if_neg hc2] at hop hid
        by_cases hc3 : (first :: second :: tail).dropWhile
              (fun o => decide (o.operation_type = OpType.UPDATE)) ≠ [] ∧
            (((first :: second :: tail).dropWhile
              (fun o => decide (o.operation_type = OpType.UPDATE))).getLastD
              first).operation_type = OpType.DELETE
        · -- UPDATEs + DELETE: sent ops are the dropWhile part, removed the takeWhile ids
          rw [if_pos hc3] at hop hid
          obtain ⟨o, ho, hoid⟩ := List.mem_map.mp hid
          have h2 : o.id ∈ ((first :: second :: tail).dropWhile
              (fun o => decide (o.operation_type = OpType.UPDATE))).map (fun o => o.id) := by
            rw [hoid]
            exact List.mem_map_of_mem _ hop
          exact hsplitnd.2.2 (List.mem_map_of_mem _ ho) h2
        · rw [if_neg hc3] at hop hid
          by_cases hc4 : 1 < ((first :: second :: tail).takeWhile
              (fun o => decide (o.operation_type = OpType.UPDATE))).length
          · rw [if_pos hc4] at hop hid
            have hne : (first :: second :: tail).takeWhile
                (fun o => decide (o.operation_type = OpType.UPDATE)) ≠ [] := by
              intro hemp
              rw [hemp] at hc4
              simp at hc4
            obtain ⟨u, us, hu⟩ := List.exists_cons_of_ne_nil hne
            rcases List.mem_append.mp hop with h | h
            · -- op is the merged first UPDATE
              rw [List.mem_singleton.mp h, hu] at hid
              -- hid reduces to : u.id ∈ us.map id
              have hid2 : u.id ∈ us.map (fun o => o.id) := hid
              have hndtake := hsplitnd.1
              rw [hu, List.map_cons, List.nodup_cons] at hndtake
              exact hndtake.1 hid2
            · -- op in the dropWhile part; removed ids are take ids
              obtain ⟨o, ho, hoid⟩ := List.mem_map.mp hid
              have h1 : o.id ∈ ((first :: second :: tail).takeWhile
                  (fun o => decide (o.operation_type = OpType.UPDATE))).map (fun o => o.id) :=
                List.mem_map_of_mem _ ((List.drop_sublist 1 _).subset ho)
              have h2 : o.id ∈ ((first :: second :: tail).dropWhile
                  (fun o => decide (o.operation_type = OpType.UPDATE))).map (fun o => o.id) := by
                rw [hoid]
                exact List.mem_map_of_mem _ h
              exact hsplitnd.2.2 h1 h2
          · rw [if_neg hc4] at hid
            exact absurd hid (List.not_mem_nil op.id)

theorem groupKeysAux_nodup :
    ∀ (l : List OutboxOperation) (acc : List String), acc.Nodup → (groupKeysAux acc l).Nodup := by
  intro l
  induction l with
  | nil => intro acc hacc; exact hacc
  | cons op rest ih =>
    intro acc hacc
    rw [groupKeysAux]
    by_cases h : entityKey op ∈ acc
    · rw [if_pos h]
      exact ih acc hacc
    · rw [if_neg h]
      refine ih _ (List.nodup_append.mpr ⟨hacc, List.nodup_singleton _, ?_⟩)
      intro a ha hb
      rw [List.mem_singleton.mp hb] at ha
      exact h ha

theorem mem_of_mem_groupByEntity {ops : List OutboxOperation} {g : List OutboxOperation}
    (hg : g ∈ groupByEntity ops) : ∀ op ∈ g, op ∈ ops := by
  obtain ⟨k, -, rfl⟩ := List.mem_map.mp hg
  intro op hop
  exact List.mem_of_mem_filter hop

theorem groupByEntity_ids_nodup {ops : List OutboxOperation} {g : List OutboxOperation}
    (hnd : (ops.map (fun o => o.id)).Nodup) (hg : g ∈ groupByEntity ops) :
    (g.map (fun o => o.id)).Nodup := by
  obtain ⟨k, -, rfl⟩ := List.mem_map.mp hg
  exact List.Nodup.sublist ((List.filter_sublist ops).map (fun o => o.id)) hnd

theorem groupByEntity_pairwise_ids {ops : List OutboxOperation}
    (hnd : (ops.map (fun o => o.id)).Nodup) :
    (groupByEntity ops).Pairwise (fun g1 g2 =>
      ∀ i ∈ g1.map (fun o => o.id), i ∉ g2.map (fun o => o.id)) := by
  unfold groupByEntity
  rw [List.pairwise_map]
  have hkeys : (groupKeys ops).Nodup := groupKeysAux_nodup ops [] List.nodup_nil
  refine List.Pairwise.imp ?_ hkeys
  intro k1 k2 hne i hi1 hi2
  obtain ⟨o1, ho1, hoid1⟩ := List.mem_map.mp hi1
  obtain ⟨o2, ho2, hoid2⟩ := List.mem_map.mp hi2
  have heq : o1 = o2 :=
    List.inj_on_of_nodup_map hnd (List.mem_of_mem_filter ho1)
      (List.mem_of_mem_filter ho2) (hoid1.trans hoid2.symm)
  apply hne
  have hk1 : entityKey o1 = k1 := by
    have := List.of_mem_filter ho1
    simpa using this
  have hk2 : entityKey o2 = k2 := by
    have := List.of_mem_filter ho2
    simpa using this
  rw [← hk1, heq, hk2]

theorem coalesceOperations_disjoint {ops : List OutboxOperation}
    (hnd : (ops.map (fun o => o.id)).Nodup) :
    ∀ op ∈ (coalesceOperations ops).1, op.id ∉ (coalesceOperations ops).2 := by
  intro op hop hmem
  unfold coalesceOperations at hop hmem
  dsimp only at hop hmem
  rw [List.mem_flatten] at hop hmem
  obtain ⟨ls, hls, hopls⟩ := hop
  obtain ⟨g1, hg1, rfl⟩ := List.mem_map.mp hls
  obtain ⟨lr, hlr, hidlr⟩ := hmem
  obtain ⟨g2, hg2, rfl⟩ := List.mem_map.mp hlr
  by_cases heq : g1 = g2
  · subst heq
    exact coalesceGroup_disjoint g1 (groupByEntity_ids_nodup hnd hg1) op hopls hidlr
  · have hsymm : Symmetric (fun (g1 g2 : List OutboxOperation) =>
        ∀ i ∈ g1.map (fun o => o.id), i ∉ g2.map (fun o => o.id)) := by
      intro a b h i hib hia
      exact h i hia hib
    have hrel := (groupByEntity_pairwise_ids hnd).forall hsymm hg1 hg2 heq
    exact hrel op.id (coalesceGroup_sent_ids g1 op hopls)
      (coalesceGroup_removed_ids g2 op.id hidlr)

theorem filters_append_ids_nodup {l : List OutboxOperation} {p q : OutboxOperation → Bool}
    (hnd : (l.map (fun o => o.id)).Nodup)
    (hpq : ∀ o, ¬(p o = true ∧ q o = true)) :
    ((l.filter p ++ l.filter q).map (fun o => o.id)).Nodup := by
  rw [List.map_append, List.nodup_append]
  refine ⟨List.Nodup.sublist ((List.filter_sublist l).map _) hnd,
          List.Nodup.sublist ((List.filter_sublist l).map _) hnd, ?_⟩
  intro i hi1 hi2
  obtain ⟨o1, ho1, hid1⟩ := List.mem_map.mp hi1
  obtain ⟨o2, ho2, hid2⟩ := List.mem_map.mp hi2
  have heq : o1 = o2 := List.inj_on_of_nodup_map hnd (List.mem_of_mem_filter ho1)
    (List.mem_of_mem_filter ho2) (hid1.trans hid2.symm)
  exact hpq o1 ⟨List.of_mem_filter ho1, heq ▸ List.of_mem_filter ho2⟩

theorem getPendingOperations_ids_nodup {db : DB} {nowMs : Int}
    (hnd : (db.outbox.map (fun o => o.id)).Nodup) :
    ((getPendingOperations db nowMs).map (fun o => o.id)).Nodup := by
  unfold getPendingOperations
  dsimp only
  refine ((List.perm_insertionSort seqLe _).map (fun o => o.id)).nodup_iff.mpr ?_
  refine filters_append_ids_nodup hnd ?_
  intro o h
  obtain ⟨h1, h2⟩ := h
  rw [decide_eq_true_iff] at h1
  rw [Bool.and_eq_true] at h2
  obtain ⟨h2a, -⟩ := h2
  rw [decide_eq_true_iff] at h2a
  exact OpStatus.noConfusion (h1 ▸ h2a)

/-! Claim theorems. -/

/-- C1: for an existing entity, `Repository.update` is claimed to append
one UPDATE outbox record whose `data` is the patch plus the
pre-increment `version` (`current.version`, sent as `expected_version`).
The code instead records the full merged row, whose `version` is the
post-increment `current.version + 1`, so the server is sent
`expected_version = current.version + 1`. This theorem evaluates the
embedded `Repository.update` at a version-1 pre-order patched with
`{comment: "hi"}`: the entity row is stored with version 2 and
`updated_at = now` (as claimed), but the single appended outbox record
carries `data.version = 2` and `toPushOperation` extracts
`expected_version = 2`, not the expected pre-increment 1. -/
theorem c1_update_outbox_data_has_postincrement_version :
    (repositoryUpdate c1db .pre_order "X" [("comment", .vstr "hi")] "t1" "op1").map
      (fun db1 =>
        (db1.outbox.map (fun op =>
          (op.operation_type, objLookup op.data "version",
           (toPushOperation op).expected_version, objLookup op.data "comment")),
         (tableGet db1.pre_orders "X").map (fun row =>
           (objLookup row "version", objLookup row "updated_at")))) =
    .ok ([(.UPDATE, some (.vint 2), some 2, some (.vstr "hi"))],
         some (some (.vint 2), some (.vstr "t1"))) := by
  rfl

/-- C2: a pending group consisting of a CREATE followed by any number of
UPDATEs (and no DELETE) coalesces to exactly one CREATE whose `data` is
the CREATE's data merged in sequence order with each UPDATE's data with
the UPDATE `version` fields stripped, whose timestamp is the last
operation's, and whose `id` and `sequence_number` are the CREATE's; the
UPDATE ids all go to the remove set. -/
theorem c2_coalesce_create_then_updates (c : OutboxOperation)
    (us : List OutboxOperation) (hc : c.operation_type = .CREATE)
    (hu : ∀ u ∈ us, u.operation_type = .UPDATE) :
    ∃ sent, coalesceGroup (c :: us) = ([sent], us.map (fun op => op.id)) ∧
      sent.operation_type = .CREATE ∧
      sent.id = c.id ∧
      sent.sequence_number = c.sequence_number ∧
      sent.data = mergeStrippedData c.data us ∧
      sent.timestamp = ((c :: us).getLastD c).timestamp ∧
      objLookup sent.data "version" = objLookup c.data "version" := by
  match us with
  | [] =>
    refine ⟨c, ?_, hc, rfl, rfl, rfl, rfl, rfl⟩
    rfl
  | u :: us' =>
    have hlast : ((c :: u :: us').getLastD c).operation_type = .UPDATE := by
      rw [List.getLastD_cons]
      exact hu _ (getLastD_cons_mem u us' c)
    refine ⟨{ c with
              data := mergeStrippedData c.data (u :: us'),
              timestamp := ((c :: u :: us').getLastD c).timestamp }, ?_, hc, rfl, rfl, rfl, rfl,
            objLookup_mergeStrippedData c.data (u :: us')⟩
    show coalesceGroup (c :: u :: us') = _
    rw [coalesceGroup]
    have hnotdel : ¬ (c.operation_type = .CREATE ∧
        ((c :: u :: us').getLastD c).operation_type = .DELETE) := by
      rintro ⟨-, hdel⟩
      rw [hlast] at hdel
      exact OpType.noConfusion hdel
    rw [if_neg hnotdel, if_pos hc]

/-- C2 witness: an offline CREATE followed by two UPDATEs
(`status -> 1`, then `comment -> "hello"`) coalesces to one CREATE with
the merged data (`status = 1`, `comment = "hello"`,
`partner_id = "P1"`, the CREATE's `version = 1`), the last operation's
timestamp and the CREATE's id and sequence number; the UPDATE ids are
removed. -/
theorem c2_coalesce_witness :
    c2create.operation_type = .CREATE ∧
    (coalesceGroup [c2create, c2update1, c2update2]).2 = ["opU1", "opU2"] ∧
    (coalesceGroup [c2create, c2update1, c2update2]).1.map (fun s =>
      (s.id, s.sequence_number, s.operation_type, objLookup s.data "status",
       objLookup s.data "comment", objLookup s.data "partner_id",
       objLookup s.data "version", s.timestamp)) =
      [("opC", 1, .CREATE, some (.vint 1), some (.vstr "hello"), some (.vstr "P1"),
        some (.vint 1), "t3")] := by
  obtain ⟨sent, heq, -, -, -, -, -, -⟩ :=
    c2_coalesce_create_then_updates c2create [c2update1, c2update2] rfl (by decide)
  refine ⟨rfl, ?_, by rfl⟩
  rw [heq]
  rfl

/-- C4: `Repository.delete` on an existing entity is claimed to append a
DELETE outbox record with `data = {version: current.version}` (which the
code does) and to soft-delete the row, leaving it present with
`deleted_at` set. The code instead hard-deletes the row
(`table.delete(id)`), contradicting the repository's own design notes
(soft delete with `deleted_at`). This theorem evaluates the embedded
`Repository.delete` at a version-1 pre-order: the outbox record is
appended as claimed, but the row is gone from the table. -/
theorem c4_delete_removes_row_from_table :
    (repositoryDelete c4db .pre_order "X" "t1" "op1").map
      (fun db1 =>
        (db1.outbox.map (fun op => (op.operation_type, op.data)),
         tableGet db1.pre_orders "X")) =
    .ok ([(.DELETE, [("version", .vint 1)])], none) := by
  rfl

/-- C9: soft-deleted entities are claimed to be excluded from every UI
read query, in particular from the recap query. The recap query applies
no `deleted_at` filter: evaluated at a store whose only pre-order for
2024-06-15 is soft-deleted (`deleted_at = "t1"`), the query still
returns that pre-order. -/
theorem c9_recap_returns_soft_deleted_pre_order :
    objLookup c9row "deleted_at" = some (.vstr "t1") ∧
    (getRecapFromLocalDb c9db "2024-06-15").map
      (fun g => g.pre_orders.map (fun o => o.id)) = [[some (.vstr "O1")]] := by
  constructor
  · decide
  · decide

/-- C6: `markOperationFailed` increments `retry_count`; while the new
count is at most 5 it schedules
`next_retry_at = now + min(1000·2^(retry_count−1) ms, 5 min)`, and once
it exceeds 5 it sets `next_retry_at = null`; `getPendingOperations`
returns exactly the pending operations plus the failed ones whose
`next_retry_at` is non-null and due, sorted ascending by
`sequence_number`, so terminally failed operations are never returned
again. -/
theorem c6_backoff_and_pending_selection :
    (∀ (db : DB) (opId : String) (nowMs : Int) (msg : Option String) (op : OutboxOperation),
      db.outbox.find? (fun o => o.id = opId) = some op →
      ∀ o ∈ (markOperationFailed db opId nowMs msg).outbox, o.id = opId →
        o.status = .failed ∧ o.retry_count = op.retry_count + 1 ∧
        o.next_retry_at =
          (if op.retry_count + 1 ≤ 5 then
            some (nowMs + min ((1000 : Int) * 2 ^ op.retry_count) 300000)
          else none)) ∧
    (∀ (db : DB) (nowMs : Int) (o : OutboxOperation),
      o ∈ getPendingOperations db nowMs ↔
        o ∈ db.outbox ∧ (o.status = .pending ∨
          (o.status = .failed ∧ ∃ t, o.next_retry_at = some t ∧ t ≤ nowMs))) ∧
    (∀ (db : DB) (nowMs : Int), (getPendingOperations db nowMs).Sorted seqLe) ∧
    (∀ (db : DB) (nowMs : Int) (o : OutboxOperation), o ∈ getPendingOperations db nowMs →
      ¬ (o.status = .failed ∧ o.next_retry_at = none)) := by
  refine ⟨?_, ?_, ?_, ?_⟩
  · intro db opId nowMs msg op hfind o ho hid
    unfold markOperationFailed at ho
    rw [hfind] at ho
    simp only [List.mem_map] at ho
    obtain ⟨o₀, ho₀, rfl⟩ := ho
    by_cases h : o₀.id = opId
    · rw [if_pos h]
      exact ⟨rfl, rfl, rfl⟩
    · rw [if_neg h] at hid ⊢
      exact absurd hid h
  · intro db nowMs o
    exact mem_getPendingOperations
  · intro db nowMs
    exact List.sorted_insertionSort seqLe _
  · intro db nowMs o ho hterm
    rcases (mem_getPendingOperations.mp ho).2 with hp | ⟨-, t, ht, -⟩
    · rw [hterm.1] at hp
      exact OpStatus.noConfusion hp
    · rw [hterm.2] at ht
      exact Option.noConfusion ht

/-- C6 witness: the backoff computation and pending-selection applied to
a concrete one-operation outbox (`retry_count` 0, failure at `now`
5000 ms schedules the retry at 6000 ms; the pending operation is
returned by `getPendingOperations`). -/
theorem c6_backoff_witness :
    (c6db.outbox.find? (fun o => o.id = "op1") = some c6op) ∧
    (c6opFailed ∈ (markOperationFailed c6db "op1" 5000 (some "boom")).outbox) ∧
    (c6opFailed.status = .failed ∧
      c6opFailed.retry_count = c6op.retry_count + 1 ∧
      c6opFailed.next_retry_at =
        (if c6op.retry_count + 1 ≤ 5 then
          some ((5000 : Int) + min ((1000 : Int) * 2 ^ c6op.retry_count) 300000)
        else none)) ∧
    c6op ∈ getPendingOperations c6db 0 := by
  refine ⟨rfl, by decide, ?_, ?_⟩
  · exact c6_backoff_and_pending_selection.1 c6db "op1" 5000 (some "boom") c6op rfl
      c6opFailed (by decide) (by decide)
  · exact (c6_backoff_and_pending_selection.2.1 c6db 0 c6op).mpr
      ⟨by decide, Or.inl (by decide)⟩

/-- C7 counterexample: the claim says that when a pulled server
operation deletes an entity with local pending outbox operations,
rebase does not re-apply those local operations. A server DELETE
soft-deletes the row, so the row still exists and `rebaseEntity` DOES
re-apply them: at a store holding pre-order X (status 0, version 1) and
a pending local UPDATE (`status -> 1`), rebasing the server DELETE
leaves X soft-deleted with `status = 1` — different from applying the
server operation alone, which leaves `status = 0`. -/
theorem c7_rebase_reapplies_after_server_delete :
    (tableGet (rebaseEntity c7db c7serverDel [c7localUpd] "t9").pre_orders "X").map
      (fun r => (objLookup r "status", objLookup r "deleted_at")) =
      some (some (.vint 1), some (.vstr "t9")) ∧
    (tableGet (applyOperation c7db c7serverDel "t9").pre_orders "X").map
      (fun r => (objLookup r "status", objLookup r "deleted_at")) =
      some (some (.vint 0), some (.vstr "t9")) ∧
    rebaseEntity c7db c7serverDel [c7localUpd] "t9" ≠
      applyOperation c7db c7serverDel "t9" := by
  refine ⟨rfl, rfl, by decide⟩

/-- C7 (amended): rebase never modifies the outbox, and it skips the
re-application of the local pending operations exactly when the entity
row is absent after the server operation is applied (a server DELETE
soft-deletes an existing row, so in that case the local operations are
re-applied onto the soft-deleted row). -/
theorem c7_rebase_outbox_unchanged_and_skip_condition
    (db : DB) (serverOp : PullOperation) (localOps : List OutboxOperation)
    (nowIso : String) :
    (rebaseEntity db serverOp localOps nowIso).outbox = db.outbox ∧
    (getEntity (applyOperation db serverOp nowIso) serverOp.entity_type serverOp.entity_id
        = none →
      rebaseEntity db serverOp localOps nowIso = applyOperation db serverOp nowIso) ∧
    (∀ e, getEntity (applyOperation db serverOp nowIso) serverOp.entity_type
        serverOp.entity_id = some e →
      rebaseEntity db serverOp localOps nowIso =
        localOps.foldl (fun d lop => reapplyLocalOperation d lop nowIso)
          (applyOperation db serverOp nowIso)) := by
  refine ⟨?_, ?_, ?_⟩
  · unfold rebaseEntity
    dsimp only
    split
    · exact applyOperation_outbox db serverOp nowIso
    · rw [foldl_reapplyLocalOperation_outbox]
      exact applyOperation_outbox db serverOp nowIso
  · intro hge
    unfold rebaseEntity
    dsimp only
    split
    · rfl
    · rename_i e heq
      rw [hge] at heq
      exact Option.noConfusion heq
  · intro e hge
    unfold rebaseEntity
    dsimp only
    split
    · rename_i heq
      rw [hge] at heq
      exact Option.noConfusion heq
    · rfl

/-- C7 witness: rebasing a server DELETE of an entity that is absent
locally (id Y): the outbox is unchanged and the rebase equals the plain
apply (no re-application). -/
theorem c7_rebase_witness :
    (rebaseEntity c7db c7serverDelMissing [c7localUpd] "t9").outbox = c7db.outbox ∧
    (getEntity (applyOperation c7db c7serverDelMissing "t9") "pre_order" "Y" = none) ∧
    rebaseEntity c7db c7serverDelMissing [c7localUpd] "t9" =
      applyOperation c7db c7serverDelMissing "t9" := by
  refine ⟨(c7_rebase_outbox_unchanged_and_skip_condition c7db c7serverDelMissing
    [c7localUpd] "t9").1, by decide, ?_⟩
  exact (c7_rebase_outbox_unchanged_and_skip_condition c7db c7serverDelMissing
    [c7localUpd] "t9").2.1 (by decide)

/-- C8 counterexample: the claim says applying a pulled server operation
twice leaves the store as after a single application, for every op_type.
For a DELETE of an existing entity the soft-delete branch increments
`version` on every application (there is no version guard): at a store
holding pre-order X at version 1, one application leaves version 2, a
second application leaves version 3. -/
theorem c8_apply_delete_not_idempotent :
    (tableGet (applyOperation c8db c8del "t5").pre_orders "X").map
      (fun r => objLookup r "version") = some (some (.vint 2)) ∧
    (tableGet (applyOperation (applyOperation c8db c8del "t5") c8del "t5").pre_orders "X").map
      (fun r => objLookup r "version") = some (some (.vint 3)) ∧
    applyOperation (applyOperation c8db c8del "t5") c8del "t5" ≠
      applyOperation c8db c8del "t5" := by
  refine ⟨rfl, rfl, by decide⟩

/-- C8 (amended): applying a pulled server operation twice in a row
equals applying it once for CREATE and UPDATE operations (DELETE of an
existing entity is excluded: its soft-delete increments the version on
every application). -/
theorem c8_apply_idempotent_for_create_update (db : DB) (op : PullOperation)
    (nowIso : String)
    (h : op.operation_type = .CREATE ∨ op.operation_type = .UPDATE) :
    applyOperation (applyOperation db op nowIso) op nowIso =
      applyOperation db op nowIso := by
  unfold applyOperation
  by_cases h1 : op.entity_type = "pre_order"
  · simp only [if_pos h1]
    rcases h with h | h <;> rw [h]
    · exact applyPreOrderOperation_create_idem _ _ _ _
    · exact applyPreOrderOperation_update_idem _ _ _ _
  · by_cases h2 : op.entity_type = "pre_order_flow"
    · simp only [if_neg h1, if_pos h2]
      rcases h with h | h <;> rw [h]
      · exact applyFlowOperation_create_idem _ _ _ _
      · exact applyFlowOperation_update_idem _ _ _ _
    · simp only [if_neg h1, if_neg h2]

/-- C8 witness: applying a concrete server UPDATE
(`comment -> "remote"`, version 2) twice to the concrete store equals
applying it once. -/
theorem c8_apply_idempotent_witness :
    (c8upd.operation_type = .CREATE ∨ c8upd.operation_type = .UPDATE) ∧
    applyOperation (applyOperation c8db c8upd "t6") c8upd "t6" =
      applyOperation c8db c8upd "t6" :=
  ⟨Or.inr rfl, c8_apply_idempotent_for_create_update c8db c8upd "t6" (Or.inr rfl)⟩

/-- C3: per-operation conflict reconciliation. For a conflict result
whose originating outbox operation is a CREATE or UPDATE: the operation
is marked synced, the local entity row's version is set to
`new_version`, and every conflicted field the server won is overwritten
with `server_value` (stated for well-formed results: `new_version`
present, conflict fields distinct and distinct from `version`, entity
row present). For a conflict result whose originating operation is a
DELETE: the local entity row is restored (`deleted_at = null`,
`version = new_version`, `updated_at` refreshed) and the operation is
marked rejected. -/
theorem c3_conflict_reconciliation :
    (∀ (db : DB) (r : PushOperationResult) (toSend : List OutboxOperation)
        (nowIso : String) (op : OutboxOperation) (v : Int)
        (cs : List ResolvedFieldConflict) (row : Obj),
      r.status = .conflict →
      toSend.find? (fun o => o.id = r.operation_id) = some op →
      (op.operation_type = .CREATE ∨ op.operation_type = .UPDATE) →
      r.new_version = some v →
      r.conflicts = some cs →
      (cs.map (fun c => c.field)).Nodup →
      (∀ c ∈ cs, c.field ≠ "version") →
      tableGet (repoTable db op.entity_type) op.entity_id = some row →
      (processOperationResult db r toSend nowIso).2.1 = true ∧
      (∀ o ∈ (processOperationResult db r toSend nowIso).1.outbox,
        o.id = r.operation_id → o.status = .synced) ∧
      (tableGet (repoTable (processOperationResult db r toSend nowIso).1 op.entity_type)
          op.entity_id).map (fun nrow => objLookup nrow "version") =
        some (some (.vint v)) ∧
      (∀ c ∈ cs, c.winner = .server →
        (tableGet (repoTable (processOperationResult db r toSend nowIso).1 op.entity_type)
            op.entity_id).map (fun nrow => objLookup nrow c.field) =
          some (some c.server_value))) ∧
    (∀ (db : DB) (r : PushOperationResult) (toSend : List OutboxOperation)
        (nowIso : String) (op : OutboxOperation) (v : Int) (row : Obj),
      r.status = .conflict →
      toSend.find? (fun o => o.id = r.operation_id) = some op →
      op.operation_type = .DELETE →
      r.new_version = some v →
      tableGet (repoTable db op.entity_type) op.entity_id = some row →
      (processOperationResult db r toSend nowIso).2.1 = false ∧
      (∀ o ∈ (processOperationResult db r toSend nowIso).1.outbox,
        o.id = r.operation_id → o.status = .rejected) ∧
      (tableGet (repoTable (processOperationResult db r toSend nowIso).1 op.entity_type)
          op.entity_id).map (fun nrow =>
            (objLookup nrow "deleted_at", objLookup nrow "version",
             objLookup nrow "updated_at")) =
        some (some .vnull, some (.vint v), some (.vstr nowIso))) := by
  constructor
  · intro db r toSend nowIso op v cs row hst hfind htype hv hcs hnd hnv hrow
    have hcond : r.status = .success ∨
        (r.status = .conflict ∧
          ¬ ((some op).map (fun o => o.operation_type) = some OpType.DELETE)) := by
      refine Or.inr ⟨hst, fun hDel => ?_⟩
      have h1 : op.operation_type = .DELETE := Option.some.inj hDel
      rcases htype with h2 | h2 <;> (rw [h2] at h1; exact OpType.noConfusion h1)
    have heqA : processOperationResult db r toSend nowIso =
        ((if serverUpdatesOf cs ≠ [] then
            setRepoTable
              (updateEntityVersion (markOperationSynced db r.operation_id)
                op.entity_type op.entity_id v)
              op.entity_type
              (tableUpdate
                (repoTable
                  (updateEntityVersion (markOperationSynced db r.operation_id)
                    op.entity_type op.entity_id v)
                  op.entity_type)
                op.entity_id (serverUpdatesOf cs))
          else
            updateEntityVersion (markOperationSynced db r.operation_id)
              op.entity_type op.entity_id v),
         true,
         getPreOrderIdForCacheInvalidation
           (if serverUpdatesOf cs ≠ [] then
              setRepoTable
                (updateEntityVersion (markOperationSynced db r.operation_id)
                  op.entity_type op.entity_id v)
                op.entity_type
                (tableUpdate
                  (repoTable
                    (updateEntityVersion (markOperationSynced db r.operation_id)
                      op.entity_type op.entity_id v)
                    op.entity_type)
                  op.entity_id (serverUpdatesOf cs))
            else
              updateEntityVersion (markOperationSynced db r.operation_id)
                op.entity_type op.entity_id v)
           (some op)) := by
      unfold processOperationResult
      dsimp only
      rw [hfind, hv, hcs]
      rw [if_pos hcond, if_pos hst]
    have hrow1 : tableGet
        (repoTable (updateEntityVersion (markOperationSynced db r.operation_id)
          op.entity_type op.entity_id v) op.entity_type) op.entity_id =
        some (objInsert row "version" (.vint v)) := by
      rw [updateEntityVersion_eq, repoTable_setRepoTable, repoTable_markOperationSynced]
      have hupd : tableUpdate (repoTable db op.entity_type) op.entity_id
          [("version", .vint v)] =
          tablePut (repoTable db op.entity_type) op.entity_id
            (objInsert row "version" (.vint v)) := by
        unfold tableUpdate
        rw [hrow]
        rfl
      rw [hupd]
      exact assocGet_assocPut_self _ _ _
    refine ⟨by rw [heqA], ?_, ?_, ?_⟩
    · rw [heqA]
      have houtbox :
          (if serverUpdatesOf cs ≠ [] then
            setRepoTable
              (updateEntityVersion (markOperationSynced db r.operation_id)
                op.entity_type op.entity_id v)
              op.entity_type
              (tableUpdate
                (repoTable
                  (updateEntityVersion (markOperationSynced db r.operation_id)
                    op.entity_type op.entity_id v)
                  op.entity_type)
                op.entity_id (serverUpdatesOf cs))
          else
            updateEntityVersion (markOperationSynced db r.operation_id)
              op.entity_type op.entity_id v).outbox =
          (markOperationSynced db r.operation_id).outbox := by
        split
        · rw [setRepoTable_outbox, updateEntityVersion_outbox]
        · rw [updateEntityVersion_outbox]
      show ∀ o ∈ _, _
      rw [houtbox]
      exact mem_markOperationSynced db r.operation_id
    · rw [heqA]
      show (tableGet (repoTable (if _ then _ else _) op.entity_type) op.entity_id).map _ = _
      by_cases hsu : serverUpdatesOf cs = []
      · rw [if_neg (fun hC => hC hsu), hrow1]
        show some (objLookup (objInsert row "version" (.vint v)) "version") = _
        rw [show objLookup (objInsert row "version" (.vint v)) "version" = some (.vint v)
          from assocGet_assocPut_self _ _ _]
      · rw [if_pos hsu, repoTable_setRepoTable]
        have hput : tableUpdate
            (repoTable (updateEntityVersion (markOperationSynced db r.operation_id)
              op.entity_type op.entity_id v) op.entity_type)
            op.entity_id (serverUpdatesOf cs) =
            tablePut
              (repoTable (updateEntityVersion (markOperationSynced db r.operation_id)
                op.entity_type op.entity_id v) op.entity_type)
              op.entity_id
              (objMerge (objInsert row "version" (.vint v)) (serverUpdatesOf cs)) := by
          unfold tableUpdate
          rw [hrow1]
        rw [hput, show tableGet (tablePut
            (repoTable (updateEntityVersion (markOperationSynced db r.operation_id)
              op.entity_type op.entity_id v) op.entity_type)
            op.entity_id
            (objMerge (objInsert row "version" (.vint v)) (serverUpdatesOf cs))) op.entity_id =
            some (objMerge (objInsert row "version" (.vint v)) (serverUpdatesOf cs))
          from assocGet_assocPut_self _ _ _]
        show some (objLookup (objMerge (objInsert row "version" (.vint v))
          (serverUpdatesOf cs)) "version") = _
        have habs : ∀ p ∈ serverUpdatesOf cs, p.1 ≠ "version" := by
          intro p hp
          exact keys_serverUpdatesOfAux (P := fun s => s ≠ "version") cs []
            (by simp) hnv p hp
        rw [objLookup_objMerge_absent _ habs]
        rw [show objLookup (objInsert row "version" (.vint v)) "version" = some (.vint v)
          from assocGet_assocPut_self _ _ _]
    · intro c hc hw
      have hlook : objLookup (serverUpdatesOf cs) c.field = some c.server_value :=
        serverUpdatesOfAux_lookup cs [] hc hw hnd
      have hne : serverUpdatesOf cs ≠ [] := by
        intro h
        rw [h] at hlook
        exact Option.noConfusion hlook
      rw [heqA]
      show (tableGet (repoTable (if _ then _ else _) op.entity_type) op.entity_id).map _ = _
      rw [if_pos hne, repoTable_setRepoTable]
      have hput : tableUpdate
          (repoTable (updateEntityVersion (markOperationSynced db r.operation_id)
            op.entity_type op.entity_id v) op.entity_type)
          op.entity_id (serverUpdatesOf cs) =
          tablePut
            (repoTable (updateEntityVersion (markOperationSynced db r.operation_id)
              op.entity_type op.entity_id v) op.entity_type)
            op.entity_id
            (objMerge (objInsert row "version" (.vint v)) (serverUpdatesOf cs)) := by
        unfold tableUpdate
        rw [hrow1]
      rw [hput, show tableGet (tablePut
          (repoTable (updateEntityVersion (markOperationSynced db r.operation_id)
            op.entity_type op.entity_id v) op.entity_type)
          op.entity_id
          (objMerge (objInsert row "version" (.vint v)) (serverUpdatesOf cs))) op.entity_id =
          some (objMerge (objInsert row "version" (.vint v)) (serverUpdatesOf cs))
        from assocGet_assocPut_self _ _ _]
      show some (objLookup (objMerge (objInsert row "version" (.vint v))
        (serverUpdatesOf cs)) c.field) = _
      have hwfsu : objWF (serverUpdatesOf cs) :=
        objWF_serverUpdatesOfAux cs [] (by simp [objWF])
      rw [objLookup_objMerge_present _ hwfsu hlook]
  · intro db r toSend nowIso op v row hst hfind hdel hv hrow
    have hcond : ¬ (r.status = .success ∨
        (r.status = .conflict ∧
          ¬ ((some op).map (fun o => o.operation_type) = some OpType.DELETE))) := by
      rintro (h | ⟨-, hno⟩)
      · rw [hst] at h
        exact ResultStatus.noConfusion h
      · refine hno ?_
        show some op.operation_type = some OpType.DELETE
        rw [hdel]
    have hdel' : (some op).map (fun o => o.operation_type) = some OpType.DELETE := by
      show some op.operation_type = some OpType.DELETE
      rw [hdel]
    have heqB : processOperationResult db r toSend nowIso =
        (markOperationRejected
          (setRepoTable db op.entity_type
            (tableUpdate (repoTable db op.entity_type) op.entity_id
              (restorePatch r row nowIso)))
          r.operation_id r.message,
         false, none) := by
      unfold processOperationResult
      dsimp only
      rw [hfind]
      rw [if_neg hcond, if_pos ⟨hst, hdel'⟩]
      dsimp only
      rw [hrow]
    have hpatch : restorePatch r row nowIso =
        [("deleted_at", .vnull), ("version", .vint v), ("updated_at", .vstr nowIso)] := by
      unfold restorePatch
      rw [hv]
    refine ⟨by rw [heqB], ?_, ?_⟩
    · rw [heqB]
      intro o ho hid
      exact (mem_markOperationRejected _ r.operation_id r.message o ho hid).1
    · rw [heqB]
      show (tableGet (repoTable (markOperationRejected _ _ _) op.entity_type)
        op.entity_id).map _ = _
      rw [repoTable_markOperationRejected, repoTable_setRepoTable]
      have hput : tableUpdate (repoTable db op.entity_type) op.entity_id
          (restorePatch r row nowIso) =
          tablePut (repoTable db op.entity_type) op.entity_id
            (objMerge row (restorePatch r row nowIso)) := by
        unfold tableUpdate
        rw [hrow]
      rw [hput, show tableGet (tablePut (repoTable db op.entity_type) op.entity_id
          (objMerge row (restorePatch r row nowIso))) op.entity_id =
          some (objMerge row (restorePatch r row nowIso))
        from assocGet_assocPut_self _ _ _]
      have hmerge : objMerge row (restorePatch r row nowIso) =
          objInsert (objInsert (objInsert row "deleted_at" .vnull) "version" (.vint v))
            "updated_at" (.vstr nowIso) := by
        rw [hpatch]
        rfl
      rw [hmerge]
      show some (_, _, _) = _
      rw [show objLookup (objInsert (objInsert (objInsert row "deleted_at" .vnull)
            "version" (.vint v)) "updated_at" (.vstr nowIso)) "deleted_at" = some .vnull from by
          rw [show objLookup (objInsert (objInsert (objInsert row "deleted_at" .vnull)
              "version" (.vint v)) "updated_at" (.vstr nowIso)) "deleted_at" =
              objLookup (objInsert (objInsert row "deleted_at" .vnull) "version" (.vint v))
                "deleted_at" from assocGet_assocPut_ne _ _ (by decide)]
          rw [show objLookup (objInsert (objInsert row "deleted_at" .vnull) "version"
              (.vint v)) "deleted_at" =
              objLookup (objInsert row "deleted_at" .vnull) "deleted_at"
            from assocGet_assocPut_ne _ _ (by decide)]
          exact assocGet_assocPut_self _ _ _]
      rw [show objLookup (objInsert (objInsert (objInsert row "deleted_at" .vnull)
            "version" (.vint v)) "updated_at" (.vstr nowIso)) "version" = some (.vint v) from by
          rw [show objLookup (objInsert (objInsert (objInsert row "deleted_at" .vnull)
              "version" (.vint v)) "updated_at" (.vstr nowIso)) "version" =
              objLookup (objInsert (objInsert row "deleted_at" .vnull) "version" (.vint v))
                "version" from assocGet_assocPut_ne _ _ (by decide)]
          exact assocGet_assocPut_self _ _ _]
      rw [show objLookup (objInsert (objInsert (objInsert row "deleted_at" .vnull)
            "version" (.vint v)) "updated_at" (.vstr nowIso)) "updated_at" =
          some (.vstr nowIso) from assocGet_assocPut_self _ _ _]

/-- C3 witness: reconciling the concrete conflict results against the
concrete store: the UPDATE conflict (server wins `status` with value 2,
new version 3) ends with success flag true, the row at version 3 and
status 2, and the UPDATE outbox row synced; the DELETE conflict
(new version 4) ends with success flag false, the row restored
(`deleted_at = null`, version 4, `updated_at = "t9"`) and the DELETE
outbox row rejected. -/
theorem c3_conflict_witness :
    (processOperationResult c3db c3resA [c3opU, c3opD] "t9").2.1 = true ∧
    (tableGet (repoTable (processOperationResult c3db c3resA [c3opU, c3opD] "t9").1
        .pre_order) "X").map (fun nrow => objLookup nrow "version") =
      some (some (.vint 3)) ∧
    (tableGet (repoTable (processOperationResult c3db c3resA [c3opU, c3opD] "t9").1
        .pre_order) "X").map (fun nrow => objLookup nrow "status") =
      some (some (.vint 2)) ∧
    (processOperationResult c3db c3resA [c3opU, c3opD] "t9").1.outbox.map
      (fun o => (o.id, o.status)) = [("u1", .synced), ("d1", .syncing)] ∧
    (processOperationResult c3db c3resB [c3opU, c3opD] "t9").2.1 = false ∧
    (tableGet (repoTable (processOperationResult c3db c3resB [c3opU, c3opD] "t9").1
        .pre_order) "X").map (fun nrow =>
          (objLookup nrow "deleted_at", objLookup nrow "version",
           objLookup nrow "updated_at")) =
      some (some .vnull, some (.vint 4), some (.vstr "t9")) ∧
    (processOperationResult c3db c3resB [c3opU, c3opD] "t9").1.outbox.map
      (fun o => (o.id, o.status)) = [("u1", .syncing), ("d1", .rejected)] := by
  have hA := c3_conflict_reconciliation.1 c3db c3resA [c3opU, c3opD] "t9" c3opU 3
    [c3conflict] c3row rfl (by decide) (Or.inr rfl) rfl rfl (by decide)
    (by decide) rfl
  have hB := c3_conflict_reconciliation.2 c3db c3resB [c3opU, c3opD] "t9" c3opD 4
    c3row rfl (by decide) rfl rfl rfl
  refine ⟨hA.1, hA.2.2.1, ?_, by rfl, hB.1, hB.2.2, by rfl⟩
  exact hA.2.2.2 c3conflict (by decide) rfl

/-- C5: a pending group whose first operation is a CREATE and whose last
is a DELETE cancels entirely: `coalesceGroup` sends nothing and puts
every operation id of the group in the remove set; and whenever
coalescing leaves nothing to send, `pushOperations` never contacts the
server (its result is independent of the server behaviour), finishes
with `successCount = processedCount`, and every operation whose id is in
the remove set is marked synced in the resulting store. -/
theorem c5_create_delete_group_cancels :
    (∀ (first : OutboxOperation) (rest : List OutboxOperation),
      first.operation_type = .CREATE → rest ≠ [] →
      ((first :: rest).getLastD first).operation_type = .DELETE →
      coalesceGroup (first :: rest) = ([], (first :: rest).map (fun op => op.id))) ∧
    (∀ (db : DB) (nowMs : Int) (nowIso : String)
        (srv1 srv2 : List PushOperationRequest → ServerResponse),
      (coalesceOperations (getPendingOperations db nowMs)).1 = [] →
      pushOperations db nowMs nowIso srv1 = pushOperations db nowMs nowIso srv2 ∧
      (pushOperations db nowMs nowIso srv1).2.successCount =
        (pushOperations db nowMs nowIso srv1).2.processedCount ∧
      ∀ op ∈ (pushOperations db nowMs nowIso srv1).1.outbox,
        op.id ∈ (coalesceOperations (getPendingOperations db nowMs)).2 →
        op.status = .synced) := by
  constructor
  · intro first rest hc hne hdel
    match rest, hne with
    | second :: tail, _ =>
      rw [coalesceGroup]
      dsimp only
      rw [if_pos ⟨hc, hdel⟩]
  · intro db nowMs nowIso srv1 srv2 hsend
    have heval : ∀ srv : List PushOperationRequest → ServerResponse,
        pushOperations db nowMs nowIso srv =
        (if getPendingOperations db nowMs = [] then
          (db, { processedCount := 0, successCount := 0, failedCount := 0, errors := [] })
        else
          ((if (coalesceOperations (getPendingOperations db nowMs)).2 ≠ [] then
              markOperationsSynced db (coalesceOperations (getPendingOperations db nowMs)).2
            else db),
           { processedCount := (getPendingOperations db nowMs).length,
             successCount := (getPendingOperations db nowMs).length,
             failedCount := 0, errors := [] })) := by
      intro srv
      unfold pushOperations
      dsimp only
      by_cases hops : getPendingOperations db nowMs = []
      · rw [if_pos hops, if_pos hops]
      · rw [if_neg hops, if_neg hops, if_pos hsend]
    refine ⟨(heval srv1).trans (heval srv2).symm, ?_, ?_⟩
    · rw [heval srv1]
      by_cases hops : getPendingOperations db nowMs = []
      · rw [if_pos hops]
      · rw [if_neg hops]
    · intro op hop hid
      rw [heval srv1] at hop
      by_cases hops : getPendingOperations db nowMs = []
      · rw [hops, show (coalesceOperations ([] : List OutboxOperation)).2 = [] from rfl] at hid
        exact absurd hid (List.not_mem_nil op.id)
      · rw [if_neg hops] at hop
        by_cases hrem : (coalesceOperations (getPendingOperations db nowMs)).2 ≠ []
        · rw [if_pos hrem] at hop
          exact mem_markOperationsSynced db _ op hop hid
        · rw [not_not] at hrem
          rw [hrem] at hid
          exact absurd hid (List.not_mem_nil op.id)

/-- C5 witness: the concrete CREATE + DELETE pair on pre-order X cancels
out in `coalesceGroup`; with an outbox holding exactly that pair, the
push result is the same under a responding server and under a failing
one (no network call), `successCount = processedCount = 2`, and both
outbox rows end synced. -/
theorem c5_create_delete_witness :
    coalesceGroup [c5create, c5delete] = ([], ["a1", "a2"]) ∧
    pushOperations c5db 0 "t3" (fun _ => .ok []) =
      pushOperations c5db 0 "t3" (fun _ => .transportError "down") ∧
    (pushOperations c5db 0 "t3" (fun _ => .ok [])).2.successCount =
      (pushOperations c5db 0 "t3" (fun _ => .ok [])).2.processedCount ∧
    (pushOperations c5db 0 "t3" (fun _ => .ok [])).1.outbox.map (fun o => o.status) =
      [.synced, .synced] := by
  have h1 := c5_create_delete_group_cancels.1 c5create [c5delete] rfl (by decide) (by decide)
  have h2 := c5_create_delete_group_cancels.2 c5db 0 "t3"
    (fun _ => .ok []) (fun _ => .transportError "down") (by rfl)
  exact ⟨h1, h2.1, h2.2.1, by rfl⟩

/-- **C10.** When the batch push fails with a transport error, only the
surviving (sent) coalesced operations are marked failed — and their stored
outbox `data` is exactly the data of an original outbox record, so the
merged-away fields are not carried by the retried records; the operations
removed by coalescing were already marked synced before the network call
and stay synced, and no operation whose id is in the remove set is ever
returned by `getPendingOperations` on the resulting store. -/
theorem c10_transport_error_isolation (db : DB) (nowMs : Int) (nowIso : String)
    (msg : String)
    (hnd : (db.outbox.map (fun o => o.id)).Nodup)
    (hops : getPendingOperations db nowMs ≠ [])
    (hts : (coalesceOperations (getPendingOperations db nowMs)).1 ≠ []) :
    (∀ o ∈ (pushOperations db nowMs nowIso
        (fun _ => ServerResponse.transportError msg)).1.outbox,
      (o.id ∈ (coalesceOperations (getPendingOperations db nowMs)).2 →
        o.status = .synced) ∧
      (o.id ∈ (coalesceOperations (getPendingOperations db nowMs)).1.map (fun s => s.id) →
        o.status = .failed ∧ ∃ o₀ ∈ db.outbox, o₀.id = o.id ∧ o.data = o₀.data)) ∧
    ∀ t : Int, ∀ o ∈ getPendingOperations
        (pushOperations db nowMs nowIso (fun _ => ServerResponse.transportError msg)).1 t,
      o.id ∉ (coalesceOperations (getPendingOperations db nowMs)).2 := by
  have heq : (pushOperations db nowMs nowIso
      (fun _ => ServerResponse.transportError msg)).1 =
      (coalesceOperations (getPendingOperations db nowMs)).1.foldl
        (fun d op => markOperationFailed d op.id nowMs (some msg))
        (markOperationsSyncing
          (if (coalesceOperations (getPendingOperations db nowMs)).2 ≠ [] then
            markOperationsSynced db (coalesceOperations (getPendingOperations db nowMs)).2
          else db)
          ((coalesceOperations (getPendingOperations db nowMs)).1.map (fun op => op.id))) := by
    unfold pushOperations
    dsimp only
    rw [if_neg hops]
    rw [if_neg hts]
  have hndp : ((getPendingOperations db nowMs).map (fun o => o.id)).Nodup :=
    getPendingOperations_ids_nodup hnd
  have hcore : ∀ o ∈ (pushOperations db nowMs nowIso
      (fun _ => ServerResponse.transportError msg)).1.outbox,
      (o.id ∈ (coalesceOperations (getPendingOperations db nowMs)).2 →
        o.status = .synced) ∧
      (o.id ∈ (coalesceOperations (getPendingOperations db nowMs)).1.map (fun s => s.id) →
        o.status = .failed ∧ ∃ o₀ ∈ db.outbox, o₀.id = o.id ∧ o.data = o₀.data) := by
    intro o ho
    rw [heq] at ho
    constructor
    · intro hrem
      have hnotsend : o.id ∉ (coalesceOperations (getPendingOperations db nowMs)).1.map
          (fun op => op.id) := by
        intro hsend
        obtain ⟨s, hs, hsid⟩ := List.mem_map.mp hsend
        exact coalesceOperations_disjoint hndp s hs (hsid ▸ hrem)
      have h1 := foldMarkFailed_preserve _ _ o ho hnotsend
      have h2 := markOperationsSyncing_preserve o h1 hnotsend
      by_cases hr : (coalesceOperations (getPendingOperations db nowMs)).2 ≠ []
      · rw [if_pos hr] at h2
        exact mem_markOperationsSynced db _ o h2 hrem
      · rw [not_not] at hr
        rw [hr] at hrem
        exact absurd hrem (List.not_mem_nil o.id)
    · intro hsend
      refine ⟨foldMarkFailed_failed _ _ o ho hsend, ?_⟩
      obtain ⟨o2, ho2, hid2, hdata2⟩ := foldMarkFailed_src _ _ o ho
      obtain ⟨o1, ho1, hid1, hdata1⟩ := mem_markOperationsSyncing_src o2 ho2
      by_cases hr : (coalesceOperations (getPendingOperations db nowMs)).2 ≠ []
      · rw [if_pos hr] at ho1
        obtain ⟨o0, ho0, hid0, hdata0⟩ := mem_markOperationsSynced_src o1 ho1
        exact ⟨o0, ho0, by rw [hid0, hid1, hid2], by rw [hdata2, hdata1, hdata0]⟩
      · rw [if_neg hr] at ho1
        exact ⟨o1, ho1, hid1.trans hid2, hdata2.trans hdata1⟩
  refine ⟨hcore, ?_⟩
  intro t o ho hrem
  have hmem := mem_getPendingOperations.mp ho
  have hsync := (hcore o hmem.1).1 hrem
  rcases hmem.2 with hp | hf
  · rw [hsync] at hp
    exact OpStatus.noConfusion hp
  · rw [hsync] at hf
    exact OpStatus.noConfusion hf.1

/-- C10 witness: the concrete store with a pending CREATE + UPDATE pair on
pre-order X; coalescing removes the UPDATE (id "b2") and sends the merged
CREATE (id "b1"); under a transport error the CREATE record ends failed
with its original data and a retry scheduled, the UPDATE record ends
synced, the next `getPendingOperations` returns only the failed CREATE,
and by the theorem its id is not in the remove set. -/
theorem c10_transport_error_witness :
    (c10db.outbox.map (fun o => o.id)).Nodup ∧
    getPendingOperations c10db 0 ≠ [] ∧
    (coalesceOperations (getPendingOperations c10db 0)).1 ≠ [] ∧
    (coalesceOperations (getPendingOperations c10db 0)).2 = ["b2"] ∧
    (pushOperations c10db 0 "t7" (fun _ => ServerResponse.transportError "boom")).1.outbox =
      [c10opCFailed, { c10opU with status := .synced }] ∧
    c10opCFailed.data = c10opC.data ∧
    getPendingOperations (pushOperations c10db 0 "t7"
        (fun _ => ServerResponse.transportError "boom")).1 5000 = [c10opCFailed] ∧
    "b1" ∉ (coalesceOperations (getPendingOperations c10db 0)).2 := by
  refine ⟨by decide, by decide, by decide, by decide, by decide, by decide, by decide, ?_⟩
  exact (c10_transport_error_isolation c10db 0 "t7" "boom" (by decide) (by decide)
    (by decide)).2 5000 c10opCFailed (by decide)

end Stockline
